import Mathlib

/-!
Quantum circuit editor and result views

A shallow embedding of the circuit model of `static/js/simulator.js` and of the
result transforms of `static/js/visualization.js`.

Conventions of the embedding:

* the module-level globals of `simulator.js` are the fields of `State`; every
  event handler is a function `State → … → State`;
* qubit indices, qubit counts, shot counts and measurement counts are natural
  numbers; the embedding is faithful for `numQubits ≥ 1` (for `numQubits = 0`
  the JavaScript remainder `x % 0` is `NaN`, which natural numbers do not
  represent);
* other JavaScript numbers are exact rationals, and `NaN` is `none` where a
  transform can produce it; where a property depends on the rounding of a division to
  a double, the rounding is a parameter `fl` (`updateHistogramRounded`);
* DOM writes are recorded as entries of `State.log` at the granularity of the
  calls made by the handler.
-/

namespace Simulator

/-! ## Data model (`simulator.js`) -/

/-- A gate object `{ type, target, control?, parameters? }` as built by `placeGate`;
an absent key (`undefined`) is `none`. -/
structure Gate where
  type : String
  target : Nat
  control : Option Nat := none
  parameters : Option (List ℚ) := none
deriving DecidableEq, Repr

/-- The object `circuitData` written by `saveCircuit` and read by `loadCircuit`.
The five configuration keys are optional on the reading side. -/
structure CircuitData where
  numQubits : Nat
  gates : List Gate
  simulationType : Option String := none
  noiseModel : Option String := none
  optimizationAlgorithm : Option String := none
  numShots : Option Nat := none
  hardwareProfile : Option String := none
deriving DecidableEq, Repr

/-- Calls with an effect outside the globals, in the order the handlers make them. -/
inductive Event
  | renderCircuit
  | createCircuitUI
  | runSimulation
  | showNotification (message : String) (type : String)
deriving DecidableEq, Repr

/-- The globals of `simulator.js` (lines 8-18 and 209), the `savedCircuit` entry of
`localStorage`, and the log of calls. -/
structure State where
  circuit : List Gate
  numQubits : Nat
  numShots : Nat
  simulationType : String
  noiseModel : String
  optimizationAlgorithm : String
  realTimeSimulation : Bool
  parallelExecution : Bool
  hardwareProfile : String
  selectedGate : Option String
  savedCircuit : Option CircuitData
  log : List Event
deriving DecidableEq, Repr

/-- The values of the globals when the script is loaded. -/
def initialState : State :=
  { circuit := [], numQubits := 3, numShots := 1024, simulationType := "quantum",
    noiseModel := "ideal", optimizationAlgorithm := "nelder_mead",
    realTimeSimulation := false, parallelExecution := true, hardwareProfile := "ideal",
    selectedGate := none, savedCircuit := none, log := [] }

/-! ## Circuit editing (`simulator.js`) -/

/-- `updateNumQubits`, lines 101-110; `newNumQubits` is `parseInt(numQubitsInput.value)`. -/
def updateNumQubits (s : State) (newNumQubits : Nat) : State :=
  if newNumQubits ≠ s.numQubits then
    { s with numQubits := newNumQubits, log := s.log ++ [Event.createCircuitUI] }
  else s

/-- `selectGate`, lines 211-222. -/
def selectGate (s : State) (gateType : String) : State :=
  { s with selectedGate := some gateType }

/-- The gate types for which `placeGate` sets a control (line 238). -/
def controlledGates : List String :=
  ["CNOT", "CZ", "CY", "CH", "SWAP", "TOFFOLI", "FREDKIN"]

/-- The gate types for which `placeGate` sets parameters (line 245). -/
def parameterizedGates : List String :=
  ["RX", "RY", "RZ", "U1", "U2", "U3", "CPHASE"]

/-- `Math.PI`, the double `0x400921FB54442D18`, as an exact rational. -/
def MathPI : ℚ := 884279719003555 / 281474976710656

/-- The object `gate` that `placeGate` builds (lines 232-249) from the selected type,
the clicked qubit and the current qubit count. -/
def newGate (selectedGate : String) (qubit numQubits : Nat) : Gate :=
  { type := selectedGate
    target := qubit
    control :=
      if selectedGate ∈ controlledGates then some ((qubit + 1) % numQubits) else none
    parameters :=
      if selectedGate ∈ parameterizedGates then some [MathPI / 4] else none }

/-- `placeGate`, lines 228-261. `!selectedGate` holds for `null` and for the empty string. -/
def placeGate (s : State) (qubit : Nat) : State :=
  match s.selectedGate with
  | none => s
  | some sel =>
    if sel = "" then s
    else
      let gate := newGate sel qubit s.numQubits
      let s1 := { s with circuit := s.circuit ++ [gate], log := s.log ++ [Event.renderCircuit] }
      if s.realTimeSimulation then { s1 with log := s1.log ++ [Event.runSimulation] } else s1

/-- The predicate of `findIndex` in `removeGate` (lines 269-273): strict equality of
`type`, `target` and `control`. -/
def sameGate (gateToRemove gate : Gate) : Bool :=
  decide (gate.type = gateToRemove.type) && decide (gate.target = gateToRemove.target) &&
    decide (gate.control = gateToRemove.control)

/-- `removeGate`, lines 267-284: `findIndex` then `splice(index, 1)`. -/
def removeGate (s : State) (gateToRemove : Gate) : State :=
  match s.circuit.findIdx? (sameGate gateToRemove) with
  | none => s
  | some index =>
    let s1 := { s with circuit := s.circuit.eraseIdx index,
                       log := s.log ++ [Event.renderCircuit] }
    if s.realTimeSimulation then { s1 with log := s1.log ++ [Event.runSimulation] } else s1

/-- `addQubit`, lines 289-296. -/
def addQubit (s : State) : State :=
  if s.numQubits < 20 then
    { s with numQubits := s.numQubits + 1, log := s.log ++ [Event.createCircuitUI] }
  else s

/-- The predicate of `filter` in `removeQubit` (lines 304-307). -/
def keptByRemoveQubit (numQubits : Nat) (gate : Gate) : Bool :=
  decide (gate.target < numQubits - 1) &&
    (match gate.control with
     | none => true
     | some c => decide (c < numQubits - 1))

/-- `removeQubit`, lines 301-314. -/
def removeQubit (s : State) : State :=
  if s.numQubits > 1 then
    { s with circuit := s.circuit.filter (keptByRemoveQubit s.numQubits),
             numQubits := s.numQubits - 1,
             log := s.log ++ [Event.createCircuitUI] }
  else s

/-- `resetCircuit`, lines 327-329. -/
def resetCircuit (s : State) : State :=
  { s with circuit := [] }

/-- `clearCircuit`, lines 319-322. -/
def clearCircuit (s : State) : State :=
  let s1 := resetCircuit s
  { s1 with log := s1.log ++ [Event.renderCircuit] }

/-- The object `circuitData` built at lines 335-343 of `saveCircuit`. -/
def circuitDataOf (s : State) : CircuitData :=
  { numQubits := s.numQubits
    gates := s.circuit
    simulationType := some s.simulationType
    noiseModel := some s.noiseModel
    optimizationAlgorithm := some s.optimizationAlgorithm
    numShots := some s.numShots
    hardwareProfile := some s.hardwareProfile }

/-- `saveCircuit`, lines 334-353. `JSON.stringify` followed by `JSON.parse` is the
identity on the values a `CircuitData` holds, so the stored item is kept as the object. -/
def saveCircuit (s : State) : State :=
  { s with savedCircuit := some (circuitDataOf s),
           log := s.log ++ [Event.showNotification "Circuito guardado correctamente" "success"] }

/-- The expression `x || d` on an optional string key: `undefined` and `''` are falsy. -/
def orString (x : Option String) (d : String) : String :=
  match x with
  | none => d
  | some v => if v = "" then d else v

/-- The expression `x || d` on an optional numeric key: `undefined` and `0` are falsy. -/
def orNat (x : Option Nat) (d : Nat) : Nat :=
  match x with
  | none => d
  | some v => if v = 0 then d else v

/-- `loadCircuit`, lines 359-384. -/
def loadCircuit (s : State) (circuitData : CircuitData) : State :=
  { s with numQubits := circuitData.numQubits
           circuit := circuitData.gates
           simulationType := orString circuitData.simulationType "quantum"
           noiseModel := orString circuitData.noiseModel "ideal"
           optimizationAlgorithm := orString circuitData.optimizationAlgorithm "nelder_mead"
           numShots := orNat circuitData.numShots 1024
           hardwareProfile := orString circuitData.hardwareProfile "ideal"
           log := s.log ++ [Event.createCircuitUI,
                            Event.showNotification "Circuito cargado correctamente" "success"] }

end Simulator

/-! ## Result views (`visualization.js`) -/

namespace Visualization

/-- The result of a JavaScript division of two finite numbers: `none` stands for a
non-finite result (`NaN` or `±Infinity`), which is what a zero divisor gives. The
quotient is the exact one; the rounding of the quotient to a double is made explicit in
`jsDivideRounded`. -/
def jsDivide (a b : ℚ) : Option ℚ :=
  if b = 0 then none else some (a / b)

/-- An element of `results.statevector`: an object `{ real, imag }`, a plain number,
or `null` (the three shapes `formatComplexNumber` tells apart). -/
inductive Amplitude
  | complex (real imag : ℚ)
  | number (x : ℚ)
  | null
deriving DecidableEq, Repr

/-- An element of `results.circuit.gates` as `drawGate` reads it; a `control_qubits`
key that is absent is the empty list. -/
structure DiagramGate where
  gate_type : String
  target_qubits : List Nat
  control_qubits : List Nat := []
deriving DecidableEq, Repr

/-- The object `results.circuit` as `updateCircuitDiagram` reads it. -/
structure CircuitView where
  num_qubits : Nat
  gates : List DiagramGate
deriving DecidableEq, Repr

/-- The fields of a simulation result that the views and the metrics read. `counts`
lists the properties of the `counts` object in the order they were created, with
pairwise different keys; an optional key that is absent is `none`. -/
structure SimulationResult where
  counts : Option (List (String × Nat)) := none
  statevector : Option (List Amplitude) := none
  shots : Nat
  fidelity : Option ℚ := none
  entanglement_entropy : Option ℚ := none
  execution_time : Option ℚ := none
  circuit_depth : Option Nat := none
  circuit : Option CircuitView := none
deriving DecidableEq, Repr

/-- The array index a property key denotes, if any (ECMAScript: a canonical numeric
string whose value is an integer below `2^32 - 1`): decimal digits without a leading
zero, or `"0"` itself. -/
def arrayIndex? (key : String) : Option Nat :=
  let cs := key.toList
  if cs.all Char.isDigit && !cs.isEmpty &&
      (decide (cs = ['0']) || decide (cs.head? ≠ some '0')) then
    let v := cs.foldl (fun acc c => 10 * acc + (c.toNat - 48)) 0
    if v < 2 ^ 32 - 1 then some v else none
  else none

/-- The own properties of an object in enumeration order (ECMAScript
`OrdinaryOwnPropertyKeys`, which `Object.keys` and `Object.values` follow): first the
properties whose key is an array index, by ascending index, then the other string
keys in order of creation. -/
def ownEntries {α : Type} (o : List (String × α)) : List (String × α) :=
  ((o.filterMap (fun e => (arrayIndex? e.1).map (fun i => (i, e)))).insertionSort
      (fun a b => a.1 ≤ b.1)).map Prod.snd
    ++ o.filter (fun e => (arrayIndex? e.1).isNone)

/-- `Object.keys`. -/
def objectKeys {α : Type} (o : List (String × α)) : List String :=
  (ownEntries o).map Prod.fst

/-- `Object.values`. -/
def objectValues {α : Type} (o : List (String × α)) : List α :=
  (ownEntries o).map Prod.snd

/-- The part of `histogramChart.data` that `updateHistogram` computes from the result:
the labels and the data of the first dataset. -/
structure HistogramChart where
  labels : List String
  data : List (Option ℚ)
deriving DecidableEq, Repr

/-- The chart data set by `initializeHistogram`, lines 45-48. -/
def initializeHistogram : HistogramChart :=
  { labels := ["|0⟩", "|1⟩"], data := [some 1, some 0] }

/-- `updateHistogram`, lines 144-166 (labels and data; the colours and the axis
maximum derived from them are not part of the embedding). -/
def updateHistogram (results : SimulationResult) (chart : HistogramChart) : HistogramChart :=
  match results.counts with
  | none => chart
  | some counts =>
    { labels := objectKeys counts
      data := (objectValues counts).map (fun (count : Nat) => jsDivide count results.shots) }

/-- The JavaScript division `a / b` of two finite numbers with its rounding: the result
is the double `fl (a / b)` nearest to the exact quotient, where `fl` is the rounding of a
real number to a double; `none` stands for a non-finite result. -/
def jsDivideRounded (fl : ℚ → ℚ) (a b : ℚ) : Option ℚ :=
  if b = 0 then none else some (fl (a / b))

/-- An example of a rounding function, coarser than the rounding to a double: the
nearest multiple of `1 / 4`, a tie going up. It is monotone and exact at 0 and 1. -/
def roundToQuarter (x : ℚ) : ℚ :=
  ((⌊x * 4 + 1 / 2⌋ : ℤ) : ℚ) / 4

/-- `updateHistogram`, lines 144-166, with the division of line 150 rounded to a double
by `fl`. -/
def updateHistogramRounded (fl : ℚ → ℚ) (results : SimulationResult)
    (chart : HistogramChart) : HistogramChart :=
  match results.counts with
  | none => chart
  | some counts =>
    { labels := objectKeys counts
      data := (objectValues counts).map
        (fun (count : Nat) => jsDivideRounded fl count results.shots) }

/-- `Math.abs(amplitude)`: the argument is converted with `ToNumber`, which gives `NaN`
for an object `{ real, imag }` and `0` for `null`. -/
def mathAbs : Amplitude → Option ℚ
  | .complex _ _ => none
  | .number x => some |x|
  | .null => some 0

/-- `Math.pow(x, 2)`. -/
def mathPow2 (x : Option ℚ) : Option ℚ :=
  x.map (fun v => v ^ 2)

/-- `formatComplexNumber`, lines 575-593; `toFixed4` is `Number.prototype.toFixed`
with 4 digits. -/
def formatComplexNumber (toFixed4 : ℚ → String) : Amplitude → String
  | .complex real imag =>
    if imag ≥ 0 then toFixed4 real ++ " + " ++ toFixed4 imag ++ "i"
    else toFixed4 real ++ " - " ++ toFixed4 |imag| ++ "i"
  | .number x => toFixed4 x
  | .null => "0.0000"

/-- `i.toString(2)` for a non-negative integer. -/
def toStringRadix2 (i : Nat) : String :=
  if i = 0 then "0"
  else String.mk ((Nat.digits 2 i).reverse.map (fun d => if d = 0 then '0' else '1'))

/-- `String.prototype.padStart` with a one-character fill string. -/
def padStart (s : String) (targetLength : Nat) (fill : Char) : String :=
  String.mk (List.replicate (targetLength - s.length) fill ++ s.data)

/-- A body row of the table built by `updateStateMatrix`: the text of its three cells,
and the number `probability` (line 405) that the third cell formats. -/
structure StateRow where
  state : String
  amplitude : String
  probability : Option ℚ
  probabilityText : String
deriving DecidableEq, Repr

/-- The zero-padded binary label `stateBinary` of line 391. -/
def stateBinary (numQubits i : Nat) : String :=
  padStart (toStringRadix2 i) numQubits '0'

/-- The loop body of `updateStateMatrix`, lines 388-410. -/
def stateRow (toFixed4 : ℚ → String) (numQubits i : Nat) (amplitude : Amplitude) : StateRow :=
  let probability := mathPow2 (mathAbs amplitude)
  { state := "|" ++ stateBinary numQubits i ++ "⟩"
    amplitude := formatComplexNumber toFixed4 amplitude
    probability := probability
    probabilityText :=
      match probability with
      | none => "NaN"
      | some p => toFixed4 p }

/-- `updateStateMatrix`, lines 351-415: the body rows of the new table, or `none` when
the result has no statevector and the container is left as it was. `Math.log2` is exact
on powers of two and `padStart` truncates its target length, so `numQubits` acts as
the integer logarithm. -/
def updateStateMatrix (toFixed4 : ℚ → String) (results : SimulationResult) :
    Option (List StateRow) :=
  match results.statevector with
  | none => none
  | some statevector =>
    let numQubits := Nat.log 2 statevector.length
    some (statevector.mapIdx (fun i amplitude => stateRow toFixed4 numQubits i amplitude))

/-- The number a string of binary digits denotes (`parseInt(s, 2)`), used to read a
state label back. -/
def parseBinary (s : String) : Nat :=
  s.data.foldl (fun acc c => 2 * acc + (if c = '1' then 1 else 0)) 0

/-- The object `{ x, y, z }` returned by `calculateBlochCoordinates`. -/
structure BlochCoordinate where
  x : Option ℚ
  y : Option ℚ
  z : Option ℚ
deriving DecidableEq, Repr

/-- `calculateBlochCoordinates`, lines 214-232. The three values returned by
`Math.random()` are the arguments `r1 r2 r3`, in call order, and `sqrt` is `Math.sqrt`. -/
def calculateBlochCoordinates (sqrt : ℚ → ℚ) (r1 r2 r3 : ℚ)
    (_statevector : List Amplitude) (_qubitIndex : Nat) : BlochCoordinate :=
  let x := r1 * 2 - 1
  let y := r2 * 2 - 1
  let z := r3 * 2 - 1
  let norm := sqrt (x * x + y * y + z * z)
  { x := jsDivide x norm, y := jsDivide y norm, z := jsDivide z norm }

end Visualization

/-! ## View dispatch (`visualization.js`) -/

namespace Visualization

/-- The four transforms that `updateVisualizations` chooses from. -/
inductive Transform
  | updateHistogram
  | updateBlochSpheres
  | updateStateMatrix
  | updateCircuitDiagram
deriving DecidableEq, Repr

/-- `updateVisualizations`, lines 117-138: the transforms it calls, in call order.
`results` is `none` when the argument is falsy, and `activeView` is the `id` of the
element that `document.querySelector('.result-view.active')` returns. -/
def updateVisualizations (results : Option SimulationResult) (activeView : String) :
    List Transform :=
  match results with
  | none => []
  | some _ =>
    match activeView with
    | "histogramView" => [Transform.updateHistogram]
    | "blochView" => [Transform.updateBlochSpheres]
    | "matrixView" => [Transform.updateStateMatrix]
    | "circuitView" => [Transform.updateCircuitDiagram]
    | _ => []

end Visualization

/-! ## Submission and result handling (`simulator.js`) -/

namespace Simulator

/-- The values of `websocket.readyState`. -/
inductive ReadyState
  | CONNECTING
  | OPEN
  | CLOSING
  | CLOSED
deriving DecidableEq, Repr

/-- An element of `simulationData.circuit.gates` (lines 397-402). -/
structure RequestGate where
  gate_type : String
  target_qubits : List Nat
  control_qubits : List Nat
  parameters : List ℚ
deriving DecidableEq, Repr

/-- The object `simulationData.circuit` (lines 395-403). -/
structure RequestCircuit where
  num_qubits : Nat
  gates : List RequestGate
deriving DecidableEq, Repr

/-- The object `simulationData` (lines 394-410). -/
structure SimulationData where
  circuit : RequestCircuit
  simulation_type : String
  noise_model : String
  optimization_algorithm : String
  shots : Nat
  hardware_profile : String
  parallel_execution : Bool
deriving DecidableEq, Repr

/-- The callback of `circuit.map` at lines 397-402. An array is truthy, so
`gate.parameters || []` is the array whenever the key is present. -/
def requestGateOf (gate : Gate) : RequestGate :=
  { gate_type := gate.type
    target_qubits := [gate.target]
    control_qubits :=
      match gate.control with
      | some c => [c]
      | none => []
    parameters :=
      match gate.parameters with
      | some ps => ps
      | none => [] }

/-- The object `simulationData` that `runSimulation` builds from the globals. -/
def simulationDataOf (s : State) : SimulationData :=
  { circuit := { num_qubits := s.numQubits, gates := s.circuit.map requestGateOf }
    simulation_type := s.simulationType
    noise_model := s.noiseModel
    optimization_algorithm := s.optimizationAlgorithm
    shots := s.numShots
    hardware_profile := s.hardwareProfile
    parallel_execution := s.parallelExecution }

/-- Calls made by the submission and result handlers, in the order they are made. -/
inductive Call
  | websocketSend (action : String) (data : SimulationData)
  | fetch (url : String) (method : String) (body : SimulationData)
  | showNotification (message : String) (type : String)
  | consoleError (message : String)
  | updateMetrics (results : Visualization.SimulationResult)
  | transform (t : Visualization.Transform) (results : Visualization.SimulationResult)
deriving DecidableEq, Repr

/-- The result side of the page: the globals `simulationResults` and `websocket` (with
its `readyState`), whether the run button is disabled, the `id` of the result view that
carries the class `active`, and the log of calls. -/
structure Page where
  simulationResults : Option Visualization.SimulationResult
  websocket : Option ReadyState
  runDisabled : Bool
  activeView : String
  calls : List Call
deriving DecidableEq, Repr

/-- The page after loading: no result, no socket, the histogram view active. -/
def initialPage : Page :=
  { simulationResults := none, websocket := none, runDisabled := false,
    activeView := "histogramView", calls := [] }

/-- `showLoadingIndicator`, lines 540-546. -/
def showLoadingIndicator (p : Page) (shown : Bool) : Page :=
  { p with runDisabled := shown }

/-- `runSimulation`, lines 389-437, up to the call that leaves the page; the promise
chain attached to `fetch` is `fetchSettled`. -/
def runSimulation (s : State) (p : Page) : Page :=
  let p1 := showLoadingIndicator p true
  let simulationData := simulationDataOf s
  match p1.websocket with
  | some ReadyState.OPEN =>
    { p1 with calls := p1.calls ++ [Call.websocketSend "run_simulation" simulationData] }
  | _ =>
    { p1 with calls := p1.calls ++ [Call.fetch "/api/simulate" "POST" simulationData] }

/-- `processSimulationResults`, lines 443-454, for a result object. -/
def processSimulationResults (p : Page) (results : Visualization.SimulationResult) : Page :=
  let p1 := showLoadingIndicator { p with simulationResults := some results } false
  let p2 := { p1 with calls := p1.calls ++ [Call.updateMetrics results] }
  let transforms := Visualization.updateVisualizations (some results) p2.activeView
  { p2 with calls := p2.calls ++ transforms.map (fun t => Call.transform t results) }

/-- How the promise returned by `fetch` settles. `fetch` rejects only when no response
arrives; a response with any status fulfils it, and then `response.json()` gives the
parsed body (`json = some _`, a JSON object) or rejects (`json = none`, the body is
not JSON). -/
inductive FetchOutcome
  | rejected
  | response (status : Nat) (json : Option Visualization.SimulationResult)
deriving DecidableEq, Repr

/-- The handlers chained on `fetch` at lines 427-435: the two `then` callbacks and
the `catch` callback. -/
def fetchSettled (p : Page) (outcome : FetchOutcome) : Page :=
  match outcome with
  | FetchOutcome.response _ (some data) => processSimulationResults p data
  | _ =>
    let p1 := { p with calls := p.calls ++
                  [Call.consoleError "Error al ejecutar la simulación:",
                   Call.showNotification "Error al ejecutar la simulación" "error"] }
    showLoadingIndicator p1 false

/-- Modelled from the spec: the page markup is missing from the sources. For each view
name (`histogram`, `bloch`, `matrix`, `circuit`) the element with id `viewName + "View"`
exists and carries the class `result-view`, so that after lines 523-528 of
`switchResultView` it is the only element matched by `.result-view.active`. -/
def activeViewAfterSwitch (viewName : String) : String :=
  viewName ++ "View"

/-- `switchResultView`, lines 518-534. -/
def switchResultView (p : Page) (viewName : String) : Page :=
  let p1 := { p with activeView := activeViewAfterSwitch viewName }
  match p1.simulationResults with
  | none => p1
  | some results =>
    let transforms := Visualization.updateVisualizations (some results) p1.activeView
    { p1 with calls := p1.calls ++ transforms.map (fun t => Call.transform t results) }

end Simulator

/-! ## Circuit diagram (`visualization.js`) -/

namespace Visualization

/-- The arguments `x, y, w, h` of a `roundRect` call. -/
structure Rect where
  x : ℤ
  y : ℤ
  w : ℤ
  h : ℤ
deriving DecidableEq, Repr

/-- The control marker of lines 498-515: a line from `(x, controlY)` to `(x, lineEndY)`
and a filled dot of the given radius at `(x, controlY)`. -/
structure ControlMarker where
  x : ℤ
  controlY : ℤ
  lineEndY : ℤ
  radius : ℤ
deriving DecidableEq, Repr

/-- What `drawGate` draws for one gate: the box, the text at `(x, y)` and the control
marker when the gate has a control (fill and stroke styles are not part of the
embedding). -/
structure GateDrawing where
  text : String
  x : ℤ
  y : ℤ
  box : Rect
  control : Option ControlMarker
deriving DecidableEq, Repr

/-- A qubit line of lines 441-455: the label of qubit `index` at `(40, y + 5)` and a
line from `(x1, y)` to `(x2, y)`. -/
structure QubitLine where
  index : Nat
  y : ℤ
  x1 : ℤ
  x2 : ℤ
deriving DecidableEq, Repr

/-- The canvas after `updateCircuitDiagram`: its size, the qubit lines and, per gate of
the sequence, what `drawGate` drew. -/
structure CircuitDiagram where
  width : ℤ
  height : ℤ
  qubitLines : List QubitLine
  gates : List (Option GateDrawing)
deriving DecidableEq, Repr

/-- `drawGate`, lines 475-516, for the column `x`. When `target_qubits` is empty the
row is `NaN`; that case is `none`. -/
def drawGate (gate : DiagramGate) (x : ℤ) : Option GateDrawing :=
  match gate.target_qubits.head? with
  | none => none
  | some targetQubit =>
    let y : ℤ := ((targetQubit : ℤ) + 1) * 60
    some
      { text := gate.gate_type
        x := x
        y := y
        box := { x := x - 20, y := y - 20, w := 40, h := 40 }
        control :=
          match gate.control_qubits.head? with
          | none => none
          | some controlQubit =>
            some { x := x, controlY := ((controlQubit : ℤ) + 1) * 60,
                   lineEndY := y - 20, radius := 5 } }

/-- `updateCircuitDiagram`, lines 421-467: `none` when the result has no circuit and
the canvas is left as it was. -/
def updateCircuitDiagram (results : SimulationResult) : Option CircuitDiagram :=
  match results.circuit with
  | none => none
  | some circuit =>
    let numQubits := circuit.num_qubits
    let numGates := circuit.gates.length
    let width : ℤ := max 600 ((numGates : ℤ) * 60 + 100)
    let height : ℤ := (numQubits : ℤ) * 60 + 60
    some
      { width := width
        height := height
        qubitLines := (List.range numQubits).map
          (fun i => { index := i, y := ((i : ℤ) + 1) * 60, x1 := 50, x2 := width - 50 })
        gates := circuit.gates.mapIdx (fun i gate => drawGate gate (80 + (i : ℤ) * 60)) }

end Visualization

/-! ## Metrics, reconnection and well-formedness (`simulator.js`) -/

namespace Simulator

/-- The text of the four metric elements written by `updateMetrics`. -/
structure Metrics where
  entanglementValue : String
  fidelityValue : String
  executionTime : String
  circuitDepth : String
deriving DecidableEq, Repr

/-- `updateMetrics`, lines 460-473; `toFixed2` is `Number.prototype.toFixed` with 2
digits. A number is falsy exactly when it is `0`. -/
def updateMetrics (toFixed2 : ℚ → String) (results : Visualization.SimulationResult) :
    Metrics :=
  { entanglementValue :=
      match results.entanglement_entropy with
      | none => "0.00"
      | some v => if v = 0 then "0.00" else toFixed2 v
    fidelityValue :=
      match results.fidelity with
      | none => "1.00"
      | some v => if v = 0 then "1.00" else toFixed2 v
    executionTime :=
      match results.execution_time with
      | none => "0 ms"
      | some v => if v = 0 then "0 ms" else toFixed2 v ++ " ms"
    circuitDepth :=
      match results.circuit_depth with
      | none => "0"
      | some d => if d = 0 then "0" else toString d }

/-- The function passed to `setTimeout`. -/
inductive TimerCallback
  | setupWebSocket
deriving DecidableEq, Repr

/-- A call `setTimeout(callback, delay)` that has not fired yet. -/
structure Timer where
  callback : TimerCallback
  delay : Nat
deriving DecidableEq, Repr

/-- The duplex channel: whether the browser has `WebSocket`, the global `websocket`
with its `readyState`, and the timers that are set and have not fired. -/
structure Connection where
  supported : Bool
  websocket : Option ReadyState
  pending : List Timer
deriving DecidableEq, Repr

/-- `setupWebSocket`, lines 478-512: the new socket starts in `CONNECTING`. -/
def setupWebSocket (c : Connection) : Connection :=
  if c.supported then { c with websocket := some ReadyState.CONNECTING } else c

/-- The handler `websocket.onclose`, lines 500-504. -/
def websocketOnClose (c : Connection) : Connection :=
  { c with pending := c.pending ++ [{ callback := TimerCallback.setupWebSocket, delay := 5000 }] }

/-- The events the browser delivers to the channel. -/
inductive SocketEvent
  | opened
  | closed
  | errored
  | timerFired
deriving DecidableEq, Repr

/-- One event. The browser moves `readyState` to `OPEN` on an open event and to
`CLOSED` on the close event, which a socket receives once; `onopen` and `onerror` only
log; a timer that fires runs its callback. -/
def socketStep (c : Connection) (e : SocketEvent) : Connection :=
  match e with
  | SocketEvent.opened =>
    match c.websocket with
    | some ReadyState.CONNECTING => { c with websocket := some ReadyState.OPEN }
    | _ => c
  | SocketEvent.closed =>
    match c.websocket with
    | none => c
    | some ReadyState.CLOSED => c
    | some _ => websocketOnClose { c with websocket := some ReadyState.CLOSED }
  | SocketEvent.errored => c
  | SocketEvent.timerFired =>
    match c.pending with
    | [] => c
    | _ :: rest => setupWebSocket { c with pending := rest }

/-- A sequence of events, in order. -/
def socketRun (c : Connection) (events : List SocketEvent) : Connection :=
  events.foldl socketStep c

/-- Whether a gate refers only to qubits below `numQubits`. -/
def gateInRange (numQubits : Nat) (gate : Gate) : Bool :=
  decide (gate.target < numQubits) &&
    (match gate.control with
     | none => true
     | some c => decide (c < numQubits))

/-- Circuit well-formedness: between 1 and 20 qubits, and every gate in range. -/
def wellFormed (s : State) : Bool :=
  decide (1 ≤ s.numQubits) && decide (s.numQubits ≤ 20) &&
    s.circuit.all (gateInRange s.numQubits)

end Simulator

/-! ## Properties of the circuit model -/

namespace Simulator

/-- The first match of `findIndex` in a sequence extended by one gate is the new gate
when no earlier gate matches. -/
theorem findIdx?_append_singleton_of_no_match (p : Gate → Bool) (l : List Gate) (g : Gate)
    (hl : ∀ x ∈ l, p x = false) (hg : p g = true) :
    (l ++ [g]).findIdx? p = some l.length := by
  induction l with
  | nil => simp [List.findIdx?_cons, hg]
  | cons a l ih =>
    have ha : p a = false := hl a (List.mem_cons_self a l)
    have ih1 := ih (fun x hx => hl x (List.mem_cons_of_mem a hx))
    simp [List.findIdx?_cons, ha, ih1]

/-- Removing the position after the last element of the old sequence gives it back. -/
theorem eraseIdx_append_singleton (l : List Gate) (g : Gate) :
    (l ++ [g]).eraseIdx l.length = l := by
  rw [List.eraseIdx_append_of_length_le (le_refl _)]
  simp

/-- A gate matches itself under the predicate of `removeGate`. -/
theorem sameGate_self (g : Gate) : sameGate g g = true := by
  simp [sameGate]

/-- For two or more qubits the default control `(t + 1) % numQubits` differs from `t`. -/
theorem succ_mod_ne_self (t n : Nat) (hn : 2 ≤ n) : (t + 1) % n ≠ t := by
  intro h
  have hlt : t < n := by
    rw [← h]
    exact Nat.mod_lt _ (by omega)
  rcases Nat.lt_or_ge (t + 1) n with h1 | h1
  · rw [Nat.mod_eq_of_lt h1] at h
    omega
  · have h2 : t + 1 = n := by omega
    rw [h2, Nat.mod_self] at h
    omega

/-- C1: for a state with more than one qubit, `removeQubit` lowers the qubit count by
one, and afterwards no gate of the circuit has a target, or a defined control, that is
greater than or equal to the new qubit count. -/
theorem removeQubit_no_dangling_reference (s : State) (h : s.numQubits > 1) :
    (removeQubit s).numQubits = s.numQubits - 1 ∧
    ∀ g ∈ (removeQubit s).circuit,
      ¬ (g.target ≥ (removeQubit s).numQubits) ∧
      ∀ c, g.control = some c → ¬ (c ≥ (removeQubit s).numQubits) := by
  have hs : removeQubit s =
      { s with circuit := s.circuit.filter (keptByRemoveQubit s.numQubits),
               numQubits := s.numQubits - 1,
               log := s.log ++ [Event.createCircuitUI] } := by
    simp [removeQubit, h]
  rw [hs]
  refine ⟨rfl, ?_⟩
  intro g hg
  simp only [List.mem_filter, keptByRemoveQubit, Bool.and_eq_true, decide_eq_true_eq] at hg
  obtain ⟨_, ht, hc⟩ := hg
  refine ⟨Nat.not_le.mpr ht, ?_⟩
  intro c hgc
  rw [hgc] at hc
  have hc1 : c < s.numQubits - 1 := by simpa using hc
  exact Nat.not_le.mpr hc1

/-- Witness of C1: three qubits with `H` on qubit 0, `CNOT` on target 2 with control 0
and `CZ` on target 1 with control 2. -/
theorem removeQubit_no_dangling_reference_witness :
    (removeQubit { initialState with
        circuit := [{ type := "H", target := 0 },
                    { type := "CNOT", target := 2, control := some 0 },
                    { type := "CZ", target := 1, control := some 2 }] }).numQubits = 3 - 1 ∧
    ∀ g ∈ (removeQubit { initialState with
        circuit := [{ type := "H", target := 0 },
                    { type := "CNOT", target := 2, control := some 0 },
                    { type := "CZ", target := 1, control := some 2 }] }).circuit,
      ¬ (g.target ≥ (removeQubit { initialState with
        circuit := [{ type := "H", target := 0 },
                    { type := "CNOT", target := 2, control := some 0 },
                    { type := "CZ", target := 1, control := some 2 }] }).numQubits) ∧
      ∀ c, g.control = some c → ¬ (c ≥ (removeQubit { initialState with
        circuit := [{ type := "H", target := 0 },
                    { type := "CNOT", target := 2, control := some 0 },
                    { type := "CZ", target := 1, control := some 2 }] }).numQubits) :=
  removeQubit_no_dangling_reference
    { initialState with
        circuit := [{ type := "H", target := 0 },
                    { type := "CNOT", target := 2, control := some 0 },
                    { type := "CZ", target := 1, control := some 2 }] }
    (by decide)

/-- C2 (the code departs from the claim): with three qubits and an `H` gate on qubit 2,
`updateNumQubits` with the value 2 sets the qubit count to 2 and leaves the gate on
qubit 2 in the circuit. -/
theorem updateNumQubits_keeps_gate_on_removed_qubit :
    (updateNumQubits { initialState with circuit := [{ type := "H", target := 2 }] } 2).numQubits
      = 2 ∧
    (updateNumQubits { initialState with circuit := [{ type := "H", target := 2 }] } 2).circuit
      = [{ type := "H", target := 2 }] := by
  decide

/-- The function `updateNumQubits` never changes the gate sequence. -/
theorem updateNumQubits_circuit (s : State) (n : Nat) :
    (updateNumQubits s n).circuit = s.circuit := by
  unfold updateNumQubits
  split <;> rfl

/-- C3 as stated fails: with the sequence `[H on 0, X on 1]` and `H` selected, placing
on qubit 0 and removing the gate just placed removes the first `H`, so the sequence
becomes `[X on 1, H on 0]`. -/
theorem placeGate_removeGate_changes_order :
    (removeGate
        (placeGate { initialState with
            circuit := [{ type := "H", target := 0 }, { type := "X", target := 1 }],
            selectedGate := some "H" } 0)
        (newGate "H" 0 3)).circuit
      = [{ type := "X", target := 1 }, { type := "H", target := 0 }] ∧
    (removeGate
        (placeGate { initialState with
            circuit := [{ type := "H", target := 0 }, { type := "X", target := 1 }],
            selectedGate := some "H" } 0)
        (newGate "H" 0 3)).circuit
      ≠ [{ type := "H", target := 0 }, { type := "X", target := 1 }] := by
  decide

/-- C3 amended: for a state with at least one qubit, a selected gate type `sel` and a
target qubit, when no gate already in the sequence has the type, target and control of
the gate being placed, `placeGate` followed by `removeGate` of the gate just placed
leaves the gate sequence exactly as it was. -/
theorem placeGate_removeGate_roundtrip (s : State) (sel : String) (qubit : Nat)
    (_hq : 1 ≤ s.numQubits) (hsel : s.selectedGate = some sel) (hne : sel ≠ "")
    (hnew : ∀ g ∈ s.circuit, sameGate (newGate sel qubit s.numQubits) g = false) :
    (placeGate s qubit).circuit = s.circuit ++ [newGate sel qubit s.numQubits] ∧
    (removeGate (placeGate s qubit) (newGate sel qubit s.numQubits)).circuit = s.circuit := by
  have hp : (placeGate s qubit).circuit = s.circuit ++ [newGate sel qubit s.numQubits] := by
    simp only [placeGate, hsel, hne, if_false]
    split <;> rfl
  refine ⟨hp, ?_⟩
  have hfind : (placeGate s qubit).circuit.findIdx? (sameGate (newGate sel qubit s.numQubits))
      = some s.circuit.length := by
    rw [hp]
    exact findIdx?_append_singleton_of_no_match _ _ _ hnew (sameGate_self _)
  unfold removeGate
  rw [hfind]
  simp only
  split <;> simp [hp, eraseIdx_append_singleton]

/-- Witness of the amended C3: `CNOT` placed on qubit 1 of a three-qubit circuit that
holds an `H` on qubit 0 and a `CNOT` on target 0. -/
theorem placeGate_removeGate_roundtrip_witness :
    (placeGate { initialState with
        circuit := [{ type := "H", target := 0 },
                    { type := "CNOT", target := 0, control := some 1 }],
        selectedGate := some "CNOT" } 1).circuit
      = [{ type := "H", target := 0 }, { type := "CNOT", target := 0, control := some 1 }]
          ++ [newGate "CNOT" 1 3] ∧
    (removeGate
        (placeGate { initialState with
            circuit := [{ type := "H", target := 0 },
                        { type := "CNOT", target := 0, control := some 1 }],
            selectedGate := some "CNOT" } 1)
        (newGate "CNOT" 1 3)).circuit
      = [{ type := "H", target := 0 }, { type := "CNOT", target := 0, control := some 1 }] :=
  placeGate_removeGate_roundtrip
    { initialState with
        circuit := [{ type := "H", target := 0 },
                    { type := "CNOT", target := 0, control := some 1 }],
        selectedGate := some "CNOT" }
    "CNOT" 1 (by decide) rfl (by decide) (by decide)

/-- C4 (the code departs from the claim): with a single qubit and `CNOT` selected,
`placeGate` on qubit 0 appends a gate whose control `(0 + 1) % 1 = 0` is its target. -/
theorem placeGate_control_equals_target_on_single_qubit :
    (placeGate { initialState with numQubits := 1, selectedGate := some "CNOT" } 0).circuit
      = [{ type := "CNOT", target := 0, control := some 0 }] := by
  decide

/-- The default control is `(t + 1) % numQubits` for the seven controlled types, and it
differs from the target as soon as there are two qubits. -/
theorem newGate_control (sel : String) (t n : Nat) (hsel : sel ∈ controlledGates) :
    (newGate sel t n).control = some ((t + 1) % n) ∧
    (2 ≤ n → (newGate sel t n).control ≠ some (newGate sel t n).target) := by
  have hc : (newGate sel t n).control = some ((t + 1) % n) := by
    simp [newGate, hsel]
  refine ⟨hc, ?_⟩
  intro hn heq
  rw [hc] at heq
  exact succ_mod_ne_self t n hn (Option.some.inj heq)

/-- C5: the snapshot that `saveCircuit` stores holds the qubit count and the gate
sequence of the state, and `loadCircuit` on that snapshot, from any state, yields a
circuit with the saved qubit count and the saved gate sequence. -/
theorem saveCircuit_loadCircuit_roundtrip (s t : State) :
    (saveCircuit s).savedCircuit = some (circuitDataOf s) ∧
    (circuitDataOf s).numQubits = s.numQubits ∧
    (circuitDataOf s).gates = s.circuit ∧
    (loadCircuit t (circuitDataOf s)).numQubits = s.numQubits ∧
    (loadCircuit t (circuitDataOf s)).circuit = s.circuit :=
  ⟨rfl, rfl, rfl, rfl, rfl⟩

end Simulator

/-! ## Properties of the result views -/

namespace Visualization

/-- Dropping the index from the indexed properties gives the properties with an
array-index key, in creation order. -/
theorem filterMap_index_map_snd {α : Type} (o : List (String × α)) :
    (o.filterMap (fun e => (arrayIndex? e.1).map (fun i => (i, e)))).map Prod.snd
      = o.filter (fun e => (arrayIndex? e.1).isSome) := by
  induction o with
  | nil => rfl
  | cons a o ih =>
    cases h : arrayIndex? a.1 with
    | none => simp [List.filterMap_cons, List.filter_cons, h, ih]
    | some i => simp [List.filterMap_cons, List.filter_cons, h, ih]

/-- Every indexed property carries the array index of its own key. -/
theorem mem_filterMap_index {α : Type} (o : List (String × α)) (p : Nat × (String × α))
    (hp : p ∈ o.filterMap (fun e => (arrayIndex? e.1).map (fun i => (i, e)))) :
    arrayIndex? p.2.1 = some p.1 := by
  rw [List.mem_filterMap] at hp
  obtain ⟨e, _, he⟩ := hp
  cases h : arrayIndex? e.1 with
  | none => simp [h] at he
  | some i =>
    simp [h] at he
    subst he
    exact h

/-- The enumeration order lists every property exactly once. -/
theorem ownEntries_perm {α : Type} (o : List (String × α)) : (ownEntries o).Perm o := by
  unfold ownEntries
  have h1 : (((o.filterMap (fun e => (arrayIndex? e.1).map (fun i => (i, e)))).insertionSort
      (fun a b => a.1 ≤ b.1)).map Prod.snd).Perm
      (o.filter (fun e => (arrayIndex? e.1).isSome)) := by
    rw [← filterMap_index_map_snd]
    exact (List.perm_insertionSort _ _).map _
  have h2 : o.filter (fun e => (arrayIndex? e.1).isNone)
      = o.filter (fun e => !(arrayIndex? e.1).isSome) := by
    congr 1
    funext e
    cases arrayIndex? e.1 <;> rfl
  rw [h2]
  exact (h1.append_right _).trans (List.filter_append_perm _ o)

/-- When no key is an array index the enumeration order is the creation order. -/
theorem ownEntries_of_no_index {α : Type} (o : List (String × α))
    (h : ∀ e ∈ o, arrayIndex? e.1 = none) : ownEntries o = o := by
  unfold ownEntries
  have h1 : o.filterMap (fun e => (arrayIndex? e.1).map (fun i => (i, e))) = [] := by
    rw [List.filterMap_eq_nil_iff]
    intro e he
    simp [h e he]
  have h2 : o.filter (fun e => (arrayIndex? e.1).isNone) = o := by
    rw [List.filter_eq_self]
    intro e he
    simp [h e he]
  rw [h1, h2]
  rfl

/-- The properties with an array-index key come out by ascending index. -/
theorem ownEntries_index_part_sorted {α : Type} (o : List (String × α)) :
    (((o.filterMap (fun e => (arrayIndex? e.1).map (fun i => (i, e)))).insertionSort
      (fun a b => a.1 ≤ b.1)).map Prod.snd).Pairwise
      (fun a b => ∀ i j, arrayIndex? a.1 = some i → arrayIndex? b.1 = some j → i ≤ j) := by
  have htot : IsTotal (Nat × (String × α)) (fun a b => a.1 ≤ b.1) :=
    ⟨fun a b => Nat.le_total a.1 b.1⟩
  have htr : IsTrans (Nat × (String × α)) (fun a b => a.1 ≤ b.1) :=
    ⟨fun _ _ _ hab hbc => Nat.le_trans hab hbc⟩
  have hsorted := List.sorted_insertionSort (fun (a b : Nat × (String × α)) => a.1 ≤ b.1)
    (o.filterMap (fun e => (arrayIndex? e.1).map (fun i => (i, e))))
  rw [List.pairwise_map]
  have hmem : ∀ p ∈ (o.filterMap (fun e => (arrayIndex? e.1).map (fun i => (i, e)))).insertionSort
      (fun a b => a.1 ≤ b.1), arrayIndex? p.2.1 = some p.1 := by
    intro p hp
    exact mem_filterMap_index o p ((List.perm_insertionSort _ _).mem_iff.mp hp)
  refine (List.Pairwise.and_mem.mp hsorted).imp ?_
  rintro a b ⟨ha, hb, hab⟩ i j hi hj
  rw [hmem a ha] at hi
  rw [hmem b hb] at hj
  have hi1 : a.1 = i := Option.some.inj hi
  have hj1 : b.1 = j := Option.some.inj hj
  omega

/-- The sum of the quotients is the quotient of the sum. -/
theorem sum_map_div (l : List Nat) (k : ℚ) :
    (l.map (fun (c : Nat) => (c : ℚ) / k)).sum = ((l.sum : Nat) : ℚ) / k := by
  induction l with
  | nil => simp
  | cons a l ih => simp [ih, add_div]

end Visualization

namespace Visualization

/-- C6 as stated fails: for the counts object created as `{"00": 750, "11": 250}` and
1000 shots, the key `"11"` is an array index and is enumerated before `"00"`, so the
labels are `["11", "00"]` and the series is `[0.25, 0.75]`. -/
theorem updateHistogram_scenario_enumeration_order :
    updateHistogram { counts := some [("00", 750), ("11", 250)], shots := 1000 }
        initializeHistogram
      = { labels := ["11", "00"], data := [some (1 / 4), some (3 / 4)] } ∧
    (updateHistogram { counts := some [("00", 750), ("11", 250)], shots := 1000 }
        initializeHistogram).labels ≠ ["00", "11"] := by
  have h : ownEntries [("00", 750), ("11", 250)] = [("11", 250), ("00", 750)] := by decide
  constructor
  · simp only [updateHistogram, objectKeys, objectValues, h, jsDivide, List.map]
    norm_num
  · simp only [updateHistogram, objectKeys, h, List.map]
    decide

/-- C6 amended: for a result with a counts object and a non-zero shot number,
`updateHistogram` produces one label and one data value per key, the value at a
position being `count / shots` for the key at that position; labels and values follow
the enumeration order of the object, a rearrangement of the creation order in which
the keys that are array indices come first, by ascending index, followed by the
remaining keys in creation order. -/
theorem updateHistogram_labels_and_series (results : SimulationResult)
    (counts : List (String × Nat)) (chart : HistogramChart)
    (hc : results.counts = some counts) (hs : results.shots ≠ 0) :
    (updateHistogram results chart).labels.length = counts.length ∧
    (updateHistogram results chart).data.length = counts.length ∧
    (updateHistogram results chart).labels.zip (updateHistogram results chart).data
      = (ownEntries counts).map (fun e => (e.1, some ((e.2 : ℚ) / results.shots))) ∧
    (ownEntries counts).Perm counts ∧
    (∃ ixs : List (String × Nat),
      ownEntries counts = ixs ++ counts.filter (fun e => (arrayIndex? e.1).isNone) ∧
      ixs.Perm (counts.filter (fun e => (arrayIndex? e.1).isSome)) ∧
      ixs.Pairwise
        (fun a b => ∀ i j, arrayIndex? a.1 = some i → arrayIndex? b.1 = some j → i ≤ j)) := by
  have hshots : (results.shots : ℚ) ≠ 0 := Nat.cast_ne_zero.mpr hs
  have hu : updateHistogram results chart =
      { labels := objectKeys counts
        data := (objectValues counts).map (fun (count : Nat) => jsDivide count results.shots) } := by
    simp [updateHistogram, hc]
  rw [hu]
  refine ⟨?_, ?_, ?_, ownEntries_perm counts, ?_⟩
  · simp [objectKeys, (ownEntries_perm counts).length_eq]
  · simp [objectValues, (ownEntries_perm counts).length_eq]
  · simp only [objectKeys, objectValues, jsDivide, hshots, if_false, List.map_map]
    rw [List.zip_map]
    generalize ownEntries counts = l
    induction l with
    | nil => rfl
    | cons a l ih => simp [ih]
  · refine ⟨_, rfl, ?_, ownEntries_index_part_sorted counts⟩
    rw [← filterMap_index_map_snd]
    exact (List.perm_insertionSort _ _).map _

/-- Witness of the amended C6: the counts object `{"00": 750, "11": 250}`, 1000 shots. -/
theorem updateHistogram_labels_and_series_witness :
    (updateHistogram { counts := some [("00", 750), ("11", 250)], shots := 1000 }
      initializeHistogram).labels.length = 2 ∧
    (updateHistogram { counts := some [("00", 750), ("11", 250)], shots := 1000 }
      initializeHistogram).data.length = 2 :=
  ⟨(updateHistogram_labels_and_series
      { counts := some [("00", 750), ("11", 250)], shots := 1000 }
      [("00", 750), ("11", 250)] initializeHistogram rfl (by decide)).1,
   (updateHistogram_labels_and_series
      { counts := some [("00", 750), ("11", 250)], shots := 1000 }
      [("00", 750), ("11", 250)] initializeHistogram rfl (by decide)).2.1⟩

/-- C7 as stated fails: for the counts object `{"0": 3}` and 2 shots the single entry
of the series is `3 / 2`, which is above 1. -/
theorem updateHistogram_entry_above_one :
    (updateHistogram { counts := some [("0", 3)], shots := 2 } initializeHistogram).data
      = [some (3 / 2)] ∧
    ¬ ((3 / 2 : ℚ) ≤ 1) := by
  have h : ownEntries [("0", 3)] = [("0", 3)] := by decide
  constructor
  · simp only [updateHistogram, objectValues, h, jsDivide, List.map]
    norm_num
  · norm_num

/-- With the identity as rounding, the rounded histogram is the exact one. -/
theorem updateHistogramRounded_id (results : SimulationResult) (chart : HistogramChart) :
    updateHistogramRounded (fun x => x) results chart = updateHistogram results chart := by
  unfold updateHistogramRounded updateHistogram
  cases results.counts <;> rfl

/-- The sum of the rounded quotients differs from the sum of the exact quotients by at
most the relative error of one rounding. -/
theorem sum_map_rounded_error (fl : ℚ → ℚ) (u k : ℚ) (l : List Nat)
    (herr : ∀ c ∈ l, |fl ((c : ℚ) / k) - (c : ℚ) / k| ≤ u * ((c : ℚ) / k)) :
    |(l.map (fun (c : Nat) => fl ((c : ℚ) / k))).sum
        - (l.map (fun (c : Nat) => (c : ℚ) / k)).sum|
      ≤ u * (l.map (fun (c : Nat) => (c : ℚ) / k)).sum := by
  induction l with
  | nil => simp
  | cons a l ih =>
    have ha := herr a (List.mem_cons_self a l)
    have ih1 := ih (fun c hc => herr c (List.mem_cons_of_mem a hc))
    simp only [List.map_cons, List.sum_cons]
    have hsplit : fl ((a : ℚ) / k) + (l.map (fun (c : Nat) => fl ((c : ℚ) / k))).sum
        - ((a : ℚ) / k + (l.map (fun (c : Nat) => (c : ℚ) / k)).sum)
        = (fl ((a : ℚ) / k) - (a : ℚ) / k)
          + ((l.map (fun (c : Nat) => fl ((c : ℚ) / k))).sum
              - (l.map (fun (c : Nat) => (c : ℚ) / k)).sum) := by ring
    rw [hsplit]
    calc |(fl ((a : ℚ) / k) - (a : ℚ) / k)
            + ((l.map (fun (c : Nat) => fl ((c : ℚ) / k))).sum
                - (l.map (fun (c : Nat) => (c : ℚ) / k)).sum)|
        ≤ |fl ((a : ℚ) / k) - (a : ℚ) / k|
            + |(l.map (fun (c : Nat) => fl ((c : ℚ) / k))).sum
                - (l.map (fun (c : Nat) => (c : ℚ) / k)).sum| := abs_add _ _
      _ ≤ u * ((a : ℚ) / k) + u * (l.map (fun (c : Nat) => (c : ℚ) / k)).sum :=
          add_le_add ha ih1
      _ = u * ((a : ℚ) / k + (l.map (fun (c : Nat) => (c : ℚ) / k)).sum) := by ring

/-- C7 amended: for a counts object and a positive shot number, with the division
rounded to a double by `fl` (monotone, exact at 0 and 1, relative error at most `u` on
the quotients), every entry of the series computed by `updateHistogram` is a finite
number that is at least 0; the entries sum to the sum of the counts divided by the shot
number only up to the relative error `u`; and every entry is at most 1 when no count
exceeds the shot number. -/
theorem updateHistogramRounded_series_sum_and_bounds (fl : ℚ → ℚ) (u : ℚ)
    (results : SimulationResult) (counts : List (String × Nat)) (chart : HistogramChart)
    (hc : results.counts = some counts) (hs : 0 < results.shots)
    (hmono : ∀ x y : ℚ, x ≤ y → fl x ≤ fl y) (h0 : fl 0 = 0) (h1 : fl 1 = 1)
    (herr : ∀ e ∈ counts,
      |fl ((e.2 : ℚ) / results.shots) - (e.2 : ℚ) / results.shots|
        ≤ u * ((e.2 : ℚ) / results.shots)) :
    ∃ series : List ℚ,
      (updateHistogramRounded fl results chart).data = series.map some ∧
      series = (objectValues counts).map (fun (c : Nat) => fl ((c : ℚ) / results.shots)) ∧
      |series.sum - (((counts.map Prod.snd).sum : Nat) : ℚ) / results.shots|
        ≤ u * ((((counts.map Prod.snd).sum : Nat) : ℚ) / results.shots) ∧
      (∀ v ∈ series, 0 ≤ v) ∧
      ((∀ e ∈ counts, e.2 ≤ results.shots) → ∀ v ∈ series, v ≤ 1) := by
  have hshots : (0 : ℚ) < results.shots := Nat.cast_pos.mpr hs
  have hp : (objectValues counts).Perm (counts.map Prod.snd) :=
    (ownEntries_perm counts).map _
  have hmem : ∀ c ∈ objectValues counts, ∃ e ∈ counts, e.2 = c := by
    intro c hcmem
    have hcmem1 : c ∈ counts.map Prod.snd := hp.mem_iff.mp hcmem
    rw [List.mem_map] at hcmem1
    exact hcmem1
  refine ⟨(objectValues counts).map (fun (c : Nat) => fl ((c : ℚ) / results.shots)),
    ?_, rfl, ?_, ?_, ?_⟩
  · simp [updateHistogramRounded, hc, jsDivideRounded, hshots.ne', Function.comp_def]
  · have hsum : (((counts.map Prod.snd).sum : Nat) : ℚ) / results.shots
        = ((objectValues counts).map (fun (c : Nat) => (c : ℚ) / results.shots)).sum := by
      rw [sum_map_div, hp.sum_eq]
    rw [hsum]
    apply sum_map_rounded_error fl u
    intro c hcmem
    obtain ⟨e, he, rfl⟩ := hmem c hcmem
    exact herr e he
  · intro v hv
    rw [List.mem_map] at hv
    obtain ⟨c, _, rfl⟩ := hv
    rw [← h0]
    exact hmono _ _ (by positivity)
  · intro hle v hv
    rw [List.mem_map] at hv
    obtain ⟨c, hcmem, rfl⟩ := hv
    obtain ⟨e, he, rfl⟩ := hmem c hcmem
    rw [← h1]
    apply hmono
    rw [div_le_one hshots]
    exact_mod_cast hle e he

/-- The example rounding is monotone. -/
theorem roundToQuarter_mono (x y : ℚ) (h : x ≤ y) : roundToQuarter x ≤ roundToQuarter y := by
  unfold roundToQuarter
  have h1 : ⌊x * 4 + 1 / 2⌋ ≤ ⌊y * 4 + 1 / 2⌋ := Int.floor_le_floor (by linarith)
  have h2 : ((⌊x * 4 + 1 / 2⌋ : ℤ) : ℚ) ≤ ((⌊y * 4 + 1 / 2⌋ : ℤ) : ℚ) := by exact_mod_cast h1
  linarith

/-- The example rounding at the values used below. -/
theorem roundToQuarter_values :
    roundToQuarter 0 = 0 ∧ roundToQuarter 1 = 1 ∧
    roundToQuarter (((750 : Nat) : ℚ) / ((1000 : Nat) : ℚ)) = 3 / 4 ∧
    roundToQuarter (((250 : Nat) : ℚ) / ((1000 : Nat) : ℚ)) = 1 / 4 ∧
    roundToQuarter (1 / 3) = 1 / 4 := by
  have f0 : ⌊(0 : ℚ) * 4 + 1 / 2⌋ = 0 := by rw [Int.floor_eq_iff]; norm_num
  have f1 : ⌊(1 : ℚ) * 4 + 1 / 2⌋ = 4 := by rw [Int.floor_eq_iff]; norm_num
  have f2 : ⌊((750 : Nat) : ℚ) / ((1000 : Nat) : ℚ) * 4 + 1 / 2⌋ = 3 := by
    rw [Int.floor_eq_iff]; norm_num
  have f3 : ⌊((250 : Nat) : ℚ) / ((1000 : Nat) : ℚ) * 4 + 1 / 2⌋ = 1 := by
    rw [Int.floor_eq_iff]; norm_num
  have f4 : ⌊(1 / 3 : ℚ) * 4 + 1 / 2⌋ = 1 := by rw [Int.floor_eq_iff]; norm_num
  refine ⟨?_, ?_, ?_, ?_, ?_⟩ <;> unfold roundToQuarter
  · rw [f0]; norm_num
  · rw [f1]; norm_num
  · rw [f2]; norm_num
  · rw [f3]; norm_num
  · rw [f4]; norm_num

/-- Witness of the amended C7: the counts object `{"00": 750, "11": 250}`, 1000 shots,
with the example rounding, which is exact on the two quotients, and the error bound
`2 ^ (-53)`. -/
theorem updateHistogramRounded_series_sum_and_bounds_witness :
    ∃ series : List ℚ,
      (updateHistogramRounded roundToQuarter
        { counts := some [("00", 750), ("11", 250)], shots := 1000 }
        initializeHistogram).data = series.map some ∧
      series = (objectValues [("00", 750), ("11", 250)]).map
        (fun (c : Nat) => roundToQuarter ((c : ℚ) / (1000 : Nat))) ∧
      |series.sum - ((([("00", 750), ("11", 250)].map Prod.snd).sum : Nat) : ℚ) / (1000 : Nat)|
        ≤ 1 / 2 ^ 53 * (((([("00", 750), ("11", 250)].map Prod.snd).sum : Nat) : ℚ)
            / (1000 : Nat)) ∧
      (∀ v ∈ series, 0 ≤ v) ∧
      ((∀ e ∈ [("00", 750), ("11", 250)], e.2 ≤ 1000) → ∀ v ∈ series, v ≤ 1) :=
  updateHistogramRounded_series_sum_and_bounds roundToQuarter (1 / 2 ^ 53)
    { counts := some [("00", 750), ("11", 250)], shots := 1000 }
    [("00", 750), ("11", 250)] initializeHistogram rfl (by decide)
    roundToQuarter_mono roundToQuarter_values.1 roundToQuarter_values.2.1
    (fun e he => by
      simp only [List.mem_cons, List.mem_singleton, List.not_mem_nil, or_false] at he
      rcases he with rfl | rfl
      · rw [roundToQuarter_values.2.2.1]
        norm_num
      · rw [roundToQuarter_values.2.2.2.1]
        norm_num)

/-- With a rounding the sum need not be exact: three counts of 1 with 3 shots give, under
the example rounding, three entries `1 / 4`, whose sum is not `3 / 3`. -/
theorem updateHistogramRounded_sum_inexact :
    (updateHistogramRounded roundToQuarter
        { counts := some [("00", 1), ("01", 1), ("10", 1)], shots := 3 }
        initializeHistogram).data = [some (1 / 4), some (1 / 4), some (1 / 4)] ∧
    (1 / 4 + 1 / 4 + 1 / 4 : ℚ) ≠ ((1 + 1 + 1 : Nat) : ℚ) / (3 : Nat) := by
  have h : ownEntries [("00", 1), ("01", 1), ("10", 1)] = [("10", 1), ("00", 1), ("01", 1)] := by
    decide
  have hq : roundToQuarter (((1 : Nat) : ℚ) / ((3 : Nat) : ℚ)) = 1 / 4 := by
    have := roundToQuarter_values.2.2.2.2
    simpa using this
  constructor
  · simp only [updateHistogramRounded, objectValues, h, jsDivideRounded, List.map]
    rw [hq]
    norm_num
  · norm_num

end Visualization

namespace Visualization

/-- The characters of `i.toString(2)`. -/
theorem toStringRadix2_data (i : Nat) :
    (toStringRadix2 i).data =
      if i = 0 then ['0']
      else (Nat.digits 2 i).reverse.map (fun d => if d = 0 then '0' else '1') := by
  unfold toStringRadix2
  split <;> rfl

/-- Reading binary digits written most significant first gives the number back. -/
theorem foldl_binary_digits (L : List Nat) (hL : ∀ d ∈ L, d < 2) :
    (L.reverse.map (fun d => if d = 0 then '0' else '1')).foldl
        (fun acc c => 2 * acc + (if c = '1' then 1 else 0)) 0
      = Nat.ofDigits 2 L := by
  induction L with
  | nil => rfl
  | cons d L ih =>
    have hd : d < 2 := hL d (List.mem_cons_self d L)
    have ih1 := ih (fun x hx => hL x (List.mem_cons_of_mem d hx))
    rw [List.reverse_cons, List.map_append, List.foldl_append, ih1, Nat.ofDigits_cons]
    have h01 : d = 0 ∨ d = 1 := by omega
    rcases h01 with rfl | rfl
    · simp
    · simp
      omega

/-- Reading `i.toString(2)` gives `i`. -/
theorem parseBinary_toStringRadix2 (i : Nat) : parseBinary (toStringRadix2 i) = i := by
  unfold parseBinary
  rw [toStringRadix2_data]
  split
  · subst_vars
    rfl
  · rw [foldl_binary_digits _ (fun d hd => Nat.digits_lt_base (by norm_num) hd)]
    exact Nat.ofDigits_digits 2 i

/-- Leading zeros do not change the number read. -/
theorem foldl_binary_replicate_zero (k : Nat) (cs : List Char) :
    (List.replicate k '0' ++ cs).foldl
        (fun acc c => 2 * acc + (if c = '1' then 1 else 0)) 0
      = cs.foldl (fun acc c => 2 * acc + (if c = '1' then 1 else 0)) 0 := by
  induction k with
  | zero => rfl
  | succ k ih =>
    rw [List.replicate_succ, List.cons_append, List.foldl_cons]
    simpa using ih

/-- Reading a padded label gives the number of the unpadded one. -/
theorem parseBinary_stateBinary (n i : Nat) : parseBinary (stateBinary n i) = i := by
  have h := parseBinary_toStringRadix2 i
  unfold parseBinary at h ⊢
  unfold stateBinary padStart
  rw [foldl_binary_replicate_zero]
  exact h

/-- The length of `i.toString(2)` is at most `n` for `i < 2 ^ n` and `n ≥ 1`. -/
theorem toStringRadix2_length_le (n i : Nat) (hn : 1 ≤ n) (hi : i < 2 ^ n) :
    (toStringRadix2 i).length ≤ n := by
  have hlen : (toStringRadix2 i).length = (toStringRadix2 i).data.length := rfl
  rw [hlen, toStringRadix2_data]
  split
  · simpa using hn
  · rename_i h0
    rw [List.length_map, List.length_reverse, Nat.digits_len 2 i (by norm_num) h0]
    have := Nat.log_lt_of_lt_pow h0 hi
    omega

/-- A padded label has exactly `n` characters for `i < 2 ^ n` and `n ≥ 1`. -/
theorem stateBinary_length (n i : Nat) (hn : 1 ≤ n) (hi : i < 2 ^ n) :
    (stateBinary n i).length = n := by
  have hle := toStringRadix2_length_le n i hn hi
  have hlen : (stateBinary n i).length
      = (List.replicate (n - (toStringRadix2 i).length) '0' ++ (toStringRadix2 i).data).length :=
    rfl
  rw [hlen, List.length_append, List.length_replicate]
  have hd : (toStringRadix2 i).data.length = (toStringRadix2 i).length := rfl
  omega

/-- A padded label consists of the characters `0` and `1`. -/
theorem stateBinary_chars (n i : Nat) :
    ∀ c ∈ (stateBinary n i).data, c = '0' ∨ c = '1' := by
  intro c hc
  have hdata : (stateBinary n i).data
      = List.replicate (n - (toStringRadix2 i).length) '0' ++ (toStringRadix2 i).data := rfl
  rw [hdata, List.mem_append] at hc
  rcases hc with hc | hc
  · exact Or.inl (List.eq_of_mem_replicate hc)
  · rw [toStringRadix2_data] at hc
    split at hc
    · simp at hc
      exact Or.inl hc
    · rw [List.mem_map] at hc
      obtain ⟨d, _, hd⟩ := hc
      split at hd
      · exact Or.inl hd.symm
      · exact Or.inr hd.symm

end Visualization

namespace Visualization

/-- C8 (the code departs from the claim): for the statevector of the four complex
amplitudes `1, 0, 0, 0` given as objects `{ real, imag }` with zero imaginary parts,
`updateStateMatrix` builds four rows and the probability of every row is `NaN`, since
`Math.abs` is applied to the object itself. -/
theorem updateStateMatrix_complex_probability_nan (toFixed4 : ℚ → String) :
    (updateStateMatrix toFixed4
        { statevector := some [Amplitude.complex 1 0, Amplitude.complex 0 0,
                               Amplitude.complex 0 0, Amplitude.complex 0 0],
          shots := 1024 }).map
        (fun rows => rows.map (fun r => (r.probability, r.probabilityText)))
      = some [(none, "NaN"), (none, "NaN"), (none, "NaN"), (none, "NaN")] := by
  rfl

/-- For an amplitude given as a plain number the probability of the row is its square,
and for an object `{ real, imag }` it is `NaN`, whatever the two parts are. -/
theorem stateRow_probability (toFixed4 : ℚ → String) (n i : Nat) (x real imag : ℚ) :
    (stateRow toFixed4 n i (Amplitude.number x)).probability = some (x ^ 2) ∧
    (stateRow toFixed4 n i (Amplitude.complex real imag)).probability = none := by
  constructor
  · simp [stateRow, mathPow2, mathAbs]
  · rfl

/-- C9 as stated fails at `n = 0`: for a statevector of length `2 ^ 0 = 1` the table has
one row whose label is `0`, of one character and not of `n = 0` characters. -/
theorem updateStateMatrix_single_amplitude_label :
    [Amplitude.number 1].length = 2 ^ 0 ∧
    (updateStateMatrix (fun _ => "")
        { statevector := some [Amplitude.number 1], shots := 1 }).map
        (fun rows => rows.map (fun r => r.state))
      = some ["|0⟩"] ∧
    stateBinary 0 0 = "0" ∧
    (stateBinary 0 0).length = 1 ∧
    (stateBinary 0 0).length ≠ 0 := by
  have hlog : Nat.log 2 1 = 0 := Nat.log_pow (b := 2) (by norm_num) 0
  refine ⟨rfl, ?_, by decide, by decide, by decide⟩
  simp only [updateStateMatrix, List.length_singleton, hlog]
  decide

/-- C9 amended: for a result whose statevector has length `2 ^ n` with `n ≥ 1`,
`updateStateMatrix` builds exactly `2 ^ n` rows; row `i` shows the label of `i` and the
amplitude `statevector[i]`; the label of `i` is `i.toString(2)` padded at the start with
zeros, has exactly `n` characters, all `0` or `1`, and reads back as `i`, so that the
labels of different rows differ. -/
theorem updateStateMatrix_rows_and_labels (toFixed4 : ℚ → String)
    (results : SimulationResult) (statevector : List Amplitude) (n : Nat)
    (hsv : results.statevector = some statevector)
    (hlen : statevector.length = 2 ^ n) (hn : 1 ≤ n) :
    ∃ rows : List StateRow,
      updateStateMatrix toFixed4 results = some rows ∧
      rows.length = 2 ^ n ∧
      (∀ i (hr : i < rows.length) (hv : i < statevector.length),
        rows[i].state = "|" ++ stateBinary n i ++ "⟩" ∧
        rows[i].amplitude = formatComplexNumber toFixed4 statevector[i]) ∧
      (∀ i, i < 2 ^ n →
        stateBinary n i = padStart (toStringRadix2 i) n '0' ∧
        parseBinary (toStringRadix2 i) = i ∧
        (stateBinary n i).length = n ∧
        (∀ c ∈ (stateBinary n i).data, c = '0' ∨ c = '1') ∧
        parseBinary (stateBinary n i) = i) ∧
      (∀ i j, i < 2 ^ n → j < 2 ^ n → stateBinary n i = stateBinary n j → i = j) := by
  have hlog : Nat.log 2 statevector.length = n := by
    rw [hlen]
    exact Nat.log_pow (by norm_num) n
  refine ⟨statevector.mapIdx (fun i amplitude => stateRow toFixed4 n i amplitude),
    ?_, ?_, ?_, ?_, ?_⟩
  · simp [updateStateMatrix, hsv, hlog]
  · rw [List.length_mapIdx, hlen]
  · intro i hr hv
    rw [List.getElem_mapIdx]
    exact ⟨rfl, rfl⟩
  · intro i hi
    exact ⟨rfl, parseBinary_toStringRadix2 i, stateBinary_length n i hn hi,
      stateBinary_chars n i, parseBinary_stateBinary n i⟩
  · intro i j _ _ hij
    have h := congrArg parseBinary hij
    rwa [parseBinary_stateBinary, parseBinary_stateBinary] at h

/-- Witness of C9: the two-qubit statevector `[1, 0, 0, 0]` of plain numbers. -/
theorem updateStateMatrix_rows_and_labels_witness :
    ∃ rows : List StateRow,
      updateStateMatrix (fun _ => "")
        { statevector := some [Amplitude.number 1, Amplitude.number 0,
                               Amplitude.number 0, Amplitude.number 0],
          shots := 1024 } = some rows ∧
      rows.length = 2 ^ 2 :=
  (updateStateMatrix_rows_and_labels (fun _ => "")
    { statevector := some [Amplitude.number 1, Amplitude.number 0,
                           Amplitude.number 0, Amplitude.number 0],
      shots := 1024 }
    [Amplitude.number 1, Amplitude.number 0, Amplitude.number 0, Amplitude.number 0]
    2 rfl rfl (by decide)).imp (fun _ h => ⟨h.1, h.2.1⟩)

/-- C10 (the code departs from the claim): for the one-qubit statevector `[1, 0]` and
qubit 0, whose Bloch vector is `(0, 0, 1)`, `calculateBlochCoordinates` returns
`(1, 0, 0)` when `Math.random()` gives `0.75, 0.5, 0.5` and `(0, 0, 1)` when it gives
`0.5, 0.5, 0.75`; the result is the same for every statevector and qubit index. -/
theorem calculateBlochCoordinates_depends_on_draws_only (sqrt : ℚ → ℚ)
    (hsqrt : sqrt (1 / 4) = 1 / 2) :
    calculateBlochCoordinates sqrt (3 / 4) (1 / 2) (1 / 2)
        [Amplitude.number 1, Amplitude.number 0] 0
      = { x := some 1, y := some 0, z := some 0 } ∧
    calculateBlochCoordinates sqrt (1 / 2) (1 / 2) (3 / 4)
        [Amplitude.number 1, Amplitude.number 0] 0
      = { x := some 0, y := some 0, z := some 1 } ∧
    (∀ (r1 r2 r3 : ℚ) (sv1 sv2 : List Amplitude) (q1 q2 : Nat),
      calculateBlochCoordinates sqrt r1 r2 r3 sv1 q1
        = calculateBlochCoordinates sqrt r1 r2 r3 sv2 q2) := by
  have h1 : ((3 : ℚ) / 4 * 2 - 1) * (3 / 4 * 2 - 1) + (1 / 2 * 2 - 1) * (1 / 2 * 2 - 1)
      + (1 / 2 * 2 - 1) * (1 / 2 * 2 - 1) = 1 / 4 := by norm_num
  have h2 : ((1 : ℚ) / 2 * 2 - 1) * (1 / 2 * 2 - 1) + (1 / 2 * 2 - 1) * (1 / 2 * 2 - 1)
      + (3 / 4 * 2 - 1) * (3 / 4 * 2 - 1) = 1 / 4 := by norm_num
  refine ⟨?_, ?_, fun _ _ _ _ _ _ _ => rfl⟩
  · simp only [calculateBlochCoordinates, h1, hsqrt, jsDivide]
    norm_num
  · simp only [calculateBlochCoordinates, h2, hsqrt, jsDivide]
    norm_num

/-- Witness of C10 with a square root function that is right at `1 / 4`. -/
theorem calculateBlochCoordinates_depends_on_draws_only_witness :
    calculateBlochCoordinates (fun _ => 1 / 2) (3 / 4) (1 / 2) (1 / 2)
        [Amplitude.number 1, Amplitude.number 0] 0
      = { x := some 1, y := some 0, z := some 0 } ∧
    calculateBlochCoordinates (fun _ => 1 / 2) (1 / 2) (1 / 2) (3 / 4)
        [Amplitude.number 1, Amplitude.number 0] 0
      = { x := some 0, y := some 0, z := some 1 } :=
  ⟨(calculateBlochCoordinates_depends_on_draws_only (fun _ => 1 / 2) rfl).1,
   (calculateBlochCoordinates_depends_on_draws_only (fun _ => 1 / 2) rfl).2.1⟩

end Visualization

/-! ## Properties of gate removal, qubit removal and loading -/

namespace Simulator

/-- The predicate of `removeGate` holds exactly when type, target and control agree. -/
theorem sameGate_iff (g x : Gate) :
    sameGate g x = true ↔ x.type = g.type ∧ x.target = g.target ∧ x.control = g.control := by
  simp [sameGate, and_assoc]

/-- Either `findIndex` finds nothing and no element satisfies the predicate, or the
sequence splits at the first element that satisfies it, whose position is returned. -/
theorem findIdx?_first_match (p : Gate → Bool) (l : List Gate) :
    (l.findIdx? p = none ∧ ∀ x ∈ l, p x = false) ∨
    (∃ l1 g l2, l = l1 ++ g :: l2 ∧ (∀ x ∈ l1, p x = false) ∧ p g = true ∧
      l.findIdx? p = some l1.length) := by
  induction l with
  | nil => exact Or.inl ⟨rfl, fun x hx => by simp at hx⟩
  | cons a l ih =>
    cases ha : p a with
    | true =>
      exact Or.inr ⟨[], a, l, rfl, fun x hx => by simp at hx, ha, by simp [List.findIdx?_cons, ha]⟩
    | false =>
      rcases ih with ⟨hnone, hall⟩ | ⟨l1, g, l2, hl, hl1, hg, hidx⟩
      · refine Or.inl ⟨by simp [List.findIdx?_cons, ha, hnone], ?_⟩
        intro x hx
        rcases List.mem_cons.mp hx with rfl | hx1
        · exact ha
        · exact hall x hx1
      · refine Or.inr ⟨a :: l1, g, l2, by simp [hl], ?_, hg, by simp [List.findIdx?_cons, ha, hidx]⟩
        intro x hx
        rcases List.mem_cons.mp hx with rfl | hx1
        · exact ha
        · exact hl1 x hx1

/-- Removing the position of the element after a prefix leaves prefix and suffix. -/
theorem eraseIdx_append_cons (l1 l2 : List Gate) (g : Gate) :
    (l1 ++ g :: l2).eraseIdx l1.length = l1 ++ l2 := by
  rw [List.eraseIdx_append_of_length_le (le_refl _)]
  simp

/-- C16: `removeGate` with a gate `g` either finds no gate of the sequence that agrees
with `g` in type, target and control and leaves the sequence unchanged, or splits the
sequence at the first gate that agrees with `g` and removes exactly that gate, keeping
the gates before it and after it in their order. -/
theorem removeGate_removes_first_match (s : State) (g : Gate) :
    ((∀ x ∈ s.circuit, ¬ (x.type = g.type ∧ x.target = g.target ∧ x.control = g.control)) ∧
      (removeGate s g).circuit = s.circuit) ∨
    (∃ l1 x l2, s.circuit = l1 ++ x :: l2 ∧
      (∀ y ∈ l1, ¬ (y.type = g.type ∧ y.target = g.target ∧ y.control = g.control)) ∧
      (x.type = g.type ∧ x.target = g.target ∧ x.control = g.control) ∧
      (removeGate s g).circuit = l1 ++ l2) := by
  have hfalse : ∀ y : Gate, sameGate g y = false →
      ¬ (y.type = g.type ∧ y.target = g.target ∧ y.control = g.control) := by
    intro y hy h
    rw [(sameGate_iff g y).mpr h] at hy
    exact Bool.noConfusion hy
  rcases findIdx?_first_match (sameGate g) s.circuit with
    ⟨hnone, hall⟩ | ⟨l1, x, l2, hl, hl1, hx, hidx⟩
  · refine Or.inl ⟨fun y hy => hfalse y (hall y hy), ?_⟩
    unfold removeGate
    rw [hnone]
  · refine Or.inr ⟨l1, x, l2, hl, fun y hy => hfalse y (hl1 y hy), (sameGate_iff g x).mp hx, ?_⟩
    unfold removeGate
    rw [hidx]
    simp only
    split <;> simp [hl, eraseIdx_append_cons]

/-- The predicate of `removeQubit` keeps a gate exactly when its target is below
`numQubits - 1` and its control is absent or below `numQubits - 1`. -/
theorem keptByRemoveQubit_iff (n : Nat) (g : Gate) :
    keptByRemoveQubit n g = true ↔
      g.target < n - 1 ∧ (g.control = none ∨ ∃ c, g.control = some c ∧ c < n - 1) := by
  unfold keptByRemoveQubit
  cases hc : g.control with
  | none => simp
  | some c => simp

/-- C17: for a state with `n > 1` qubits, the gate sequence after `removeQubit` is the
subsequence, in the original order, of the gates whose target is below `n - 1` and
whose control is absent or below `n - 1`; every such gate is retained. -/
theorem removeQubit_keeps_untouched_gates (s : State) (h : s.numQubits > 1) :
    (removeQubit s).circuit = s.circuit.filter (keptByRemoveQubit s.numQubits) ∧
    (removeQubit s).circuit.Sublist s.circuit ∧
    (∀ g, g ∈ (removeQubit s).circuit ↔
      g ∈ s.circuit ∧ g.target < s.numQubits - 1 ∧
        (g.control = none ∨ ∃ c, g.control = some c ∧ c < s.numQubits - 1)) := by
  have hc : (removeQubit s).circuit = s.circuit.filter (keptByRemoveQubit s.numQubits) := by
    simp [removeQubit, h]
  refine ⟨hc, ?_, ?_⟩
  · rw [hc]
    exact List.filter_sublist _
  · intro g
    rw [hc, List.mem_filter, keptByRemoveQubit_iff]

/-- Witness of C17, the scenario of three qubits with `H` on qubit 0 and `CNOT` on
target 1 with control 0: both gates are retained. -/
theorem removeQubit_keeps_untouched_gates_witness :
    (removeQubit { initialState with
        circuit := [{ type := "H", target := 0 },
                    { type := "CNOT", target := 1, control := some 0 }] }).circuit
      = [{ type := "H", target := 0 }, { type := "CNOT", target := 1, control := some 0 }] :=
  (removeQubit_keeps_untouched_gates
    { initialState with
        circuit := [{ type := "H", target := 0 },
                    { type := "CNOT", target := 1, control := some 0 }] }
    (by decide)).1.trans (by decide)

/-- With a control on qubit 2 the `CNOT` of the scenario is removed and `H` is kept. -/
theorem removeQubit_scenario_control_on_last_qubit :
    (removeQubit { initialState with
        circuit := [{ type := "H", target := 0 },
                    { type := "CNOT", target := 1, control := some 2 }] }).circuit
      = [{ type := "H", target := 0 }] := by
  decide

/-- C18: when no gate type is selected (`selectedGate` is `null`, or the empty
string), `placeGate` on any qubit returns the state as it was: the gate sequence, the
qubit count and the log of calls, which gains no `runSimulation`, are unchanged. -/
theorem placeGate_without_selection (s : State) (qubit : Nat)
    (h : s.selectedGate = none ∨ s.selectedGate = some "") :
    placeGate s qubit = s ∧
    (placeGate s qubit).circuit = s.circuit ∧
    (placeGate s qubit).numQubits = s.numQubits ∧
    (placeGate s qubit).log = s.log := by
  have hs : placeGate s qubit = s := by
    rcases h with h | h <;> simp [placeGate, h]
  rw [hs]
  exact ⟨rfl, rfl, rfl, rfl⟩

/-- Witness of C18: the initial state, in which no gate type is selected, with real-time
simulation switched on. -/
theorem placeGate_without_selection_witness :
    placeGate { initialState with realTimeSimulation := true } 1
      = { initialState with realTimeSimulation := true } :=
  (placeGate_without_selection { initialState with realTimeSimulation := true } 1
    (Or.inl rfl)).1

/-- C19 as stated fails: with three qubits and `H` selected, `placeGate` on qubit 5
appends an `H` gate with target 5 to the empty sequence. -/
theorem placeGate_out_of_range_appends :
    (placeGate { initialState with selectedGate := some "H" } 5).circuit
      = [{ type := "H", target := 5 }] ∧
    (placeGate { initialState with selectedGate := some "H" } 5).circuit
      ≠ initialState.circuit := by
  decide

/-- C19 amended: for a state with a selected gate type, `placeGate` called with a
target qubit that is not below `numQubits` makes no range check: it appends one gate of
the selected type with that target to the gate sequence. -/
theorem placeGate_does_not_check_range (s : State) (sel : String) (qubit : Nat)
    (hsel : s.selectedGate = some sel) (hne : sel ≠ "") (_hout : s.numQubits ≤ qubit) :
    ∃ gate, (placeGate s qubit).circuit = s.circuit ++ [gate] ∧
      gate.type = sel ∧ gate.target = qubit ∧
      (placeGate s qubit).numQubits = s.numQubits := by
  refine ⟨newGate sel qubit s.numQubits, ?_, rfl, rfl, ?_⟩
  · simp only [placeGate, hsel, hne, if_false]
    split <;> rfl
  · simp only [placeGate, hsel, hne, if_false]
    split <;> rfl

/-- Witness of the amended C19: `X` placed on qubit 3 of the three-qubit circuit. -/
theorem placeGate_does_not_check_range_witness :
    ∃ gate, (placeGate { initialState with selectedGate := some "X" } 3).circuit
        = initialState.circuit ++ [gate] ∧
      gate.type = "X" ∧ gate.target = 3 ∧
      (placeGate { initialState with selectedGate := some "X" } 3).numQubits = 3 :=
  placeGate_does_not_check_range { initialState with selectedGate := some "X" } "X" 3
    rfl (by decide) (by decide)

/-- C20 as stated fails: a snapshot in which `numShots` is present with value 0 and
`simulationType` is present as the empty string loads as 1024 shots and type
`quantum`. -/
theorem loadCircuit_falsy_present_field_takes_default :
    (loadCircuit initialState
        { numQubits := 2, gates := [], numShots := some 0, simulationType := some "" }).numShots
      = 1024 ∧
    (loadCircuit initialState
        { numQubits := 2, gates := [], numShots := some 0, simulationType := some "" }).numShots
      ≠ 0 ∧
    (loadCircuit initialState
        { numQubits := 2, gates := [], numShots := some 0,
          simulationType := some "" }).simulationType
      = "quantum" := by
  decide

/-- C20 amended: for every snapshot passed to `loadCircuit`, each of `simulationType`,
`noiseModel`, `optimizationAlgorithm`, `numShots` and `hardwareProfile` takes the
snapshot's value when the field is present and truthy (a non-empty string, a non-zero
number), and the default `quantum`, `ideal`, `nelder_mead`, 1024, `ideal` when the
field is missing or falsy. -/
theorem loadCircuit_defaults (s : State) (d : CircuitData) :
    (∀ v, d.simulationType = some v → v ≠ "" → (loadCircuit s d).simulationType = v) ∧
    (d.simulationType = none ∨ d.simulationType = some "" →
      (loadCircuit s d).simulationType = "quantum") ∧
    (∀ v, d.noiseModel = some v → v ≠ "" → (loadCircuit s d).noiseModel = v) ∧
    (d.noiseModel = none ∨ d.noiseModel = some "" →
      (loadCircuit s d).noiseModel = "ideal") ∧
    (∀ v, d.optimizationAlgorithm = some v → v ≠ "" →
      (loadCircuit s d).optimizationAlgorithm = v) ∧
    (d.optimizationAlgorithm = none ∨ d.optimizationAlgorithm = some "" →
      (loadCircuit s d).optimizationAlgorithm = "nelder_mead") ∧
    (∀ v, d.numShots = some v → v ≠ 0 → (loadCircuit s d).numShots = v) ∧
    (d.numShots = none ∨ d.numShots = some 0 → (loadCircuit s d).numShots = 1024) ∧
    (∀ v, d.hardwareProfile = some v → v ≠ "" → (loadCircuit s d).hardwareProfile = v) ∧
    (d.hardwareProfile = none ∨ d.hardwareProfile = some "" →
      (loadCircuit s d).hardwareProfile = "ideal") := by
  have hstr : ∀ (x : Option String) (dflt : String),
      (∀ v, x = some v → v ≠ "" → orString x dflt = v) ∧
      (x = none ∨ x = some "" → orString x dflt = dflt) := by
    intro x dflt
    constructor
    · intro v hx hv
      simp [orString, hx, hv]
    · intro hx
      rcases hx with hx | hx <;> simp [orString, hx]
  have hnat : ∀ (x : Option Nat) (dflt : Nat),
      (∀ v, x = some v → v ≠ 0 → orNat x dflt = v) ∧
      (x = none ∨ x = some 0 → orNat x dflt = dflt) := by
    intro x dflt
    constructor
    · intro v hx hv
      simp [orNat, hx, hv]
    · intro hx
      rcases hx with hx | hx <;> simp [orNat, hx]
  exact ⟨(hstr _ _).1, (hstr _ _).2, (hstr _ _).1, (hstr _ _).2, (hstr _ _).1, (hstr _ _).2,
    (hnat _ _).1, (hnat _ _).2, (hstr _ _).1, (hstr _ _).2⟩

/-- Witness of the amended C20: a snapshot with 500 shots and the noise model
`depolarizing`, the other three fields missing. -/
theorem loadCircuit_defaults_witness :
    (loadCircuit initialState
        { numQubits := 2, gates := [], numShots := some 500,
          noiseModel := some "depolarizing" }).numShots = 500 ∧
    (loadCircuit initialState
        { numQubits := 2, gates := [], numShots := some 500,
          noiseModel := some "depolarizing" }).noiseModel = "depolarizing" ∧
    (loadCircuit initialState
        { numQubits := 2, gates := [], numShots := some 500,
          noiseModel := some "depolarizing" }).simulationType = "quantum" :=
  ⟨(loadCircuit_defaults initialState
      { numQubits := 2, gates := [], numShots := some 500,
        noiseModel := some "depolarizing" }).2.2.2.2.2.2.1 500 rfl (by decide),
   (loadCircuit_defaults initialState
      { numQubits := 2, gates := [], numShots := some 500,
        noiseModel := some "depolarizing" }).2.2.1 "depolarizing" rfl (by decide),
   (loadCircuit_defaults initialState
      { numQubits := 2, gates := [], numShots := some 500,
        noiseModel := some "depolarizing" }).2.1 (Or.inl rfl)⟩

end Simulator

/-! ## Properties of the Bloch placeholder, the view switch and the submission -/

namespace Visualization

/-- C11 (the code departs from the claim): when the three values of `Math.random()` are
all `0.5`, the vector before normalisation is `(0, 0, 0)`, its norm is `0`, and the
three coordinates returned by `calculateBlochCoordinates` are `0 / 0`, not numbers. -/
theorem calculateBlochCoordinates_zero_norm (sqrt : ℚ → ℚ) (h0 : sqrt 0 = 0)
    (statevector : List Amplitude) (qubitIndex : Nat) :
    calculateBlochCoordinates sqrt (1 / 2) (1 / 2) (1 / 2) statevector qubitIndex
      = { x := none, y := none, z := none } := by
  have h : ((1 : ℚ) / 2 * 2 - 1) * (1 / 2 * 2 - 1) + (1 / 2 * 2 - 1) * (1 / 2 * 2 - 1)
      + (1 / 2 * 2 - 1) * (1 / 2 * 2 - 1) = 0 := by norm_num
  simp only [calculateBlochCoordinates, h, h0, jsDivide, if_true]

/-- Witness of C11 with a square root function that is right at `0`. -/
theorem calculateBlochCoordinates_zero_norm_witness :
    calculateBlochCoordinates (fun v => v) (1 / 2) (1 / 2) (1 / 2)
        [Amplitude.number 1, Amplitude.number 0] 0
      = { x := none, y := none, z := none } :=
  calculateBlochCoordinates_zero_norm (fun v => v) rfl
    [Amplitude.number 1, Amplitude.number 0] 0

/-- For every other outcome of the draws, and a square root that is exact on the squared
norm, the coordinates are three numbers whose squares sum to 1. -/
theorem calculateBlochCoordinates_unit (sqrt : ℚ → ℚ) (r1 r2 r3 : ℚ)
    (statevector : List Amplitude) (qubitIndex : Nat)
    (hsqrt : sqrt ((r1 * 2 - 1) * (r1 * 2 - 1) + (r2 * 2 - 1) * (r2 * 2 - 1)
        + (r3 * 2 - 1) * (r3 * 2 - 1))
      * sqrt ((r1 * 2 - 1) * (r1 * 2 - 1) + (r2 * 2 - 1) * (r2 * 2 - 1)
        + (r3 * 2 - 1) * (r3 * 2 - 1))
      = (r1 * 2 - 1) * (r1 * 2 - 1) + (r2 * 2 - 1) * (r2 * 2 - 1)
        + (r3 * 2 - 1) * (r3 * 2 - 1))
    (hne : ¬ (r1 = 1 / 2 ∧ r2 = 1 / 2 ∧ r3 = 1 / 2)) :
    ∃ x y z : ℚ,
      calculateBlochCoordinates sqrt r1 r2 r3 statevector qubitIndex
        = { x := some x, y := some y, z := some z } ∧
      x ^ 2 + y ^ 2 + z ^ 2 = 1 := by
  set a := r1 * 2 - 1 with ha
  set b := r2 * 2 - 1 with hb
  set c := r3 * 2 - 1 with hc
  set n := sqrt (a * a + b * b + c * c) with hn
  have hpos : 0 < a * a + b * b + c * c := by
    by_contra hle
    have hzero : a * a + b * b + c * c = 0 :=
      le_antisymm (not_lt.mp hle)
        (add_nonneg (add_nonneg (mul_self_nonneg a) (mul_self_nonneg b)) (mul_self_nonneg c))
    have ha0 : a = 0 := by nlinarith [mul_self_nonneg a, mul_self_nonneg b, mul_self_nonneg c]
    have hb0 : b = 0 := by nlinarith [mul_self_nonneg a, mul_self_nonneg b, mul_self_nonneg c]
    have hc0 : c = 0 := by nlinarith [mul_self_nonneg a, mul_self_nonneg b, mul_self_nonneg c]
    apply hne
    refine ⟨?_, ?_, ?_⟩ <;> linarith
  have hn0 : n ≠ 0 := by
    intro h
    rw [h] at hsqrt
    simp at hsqrt
    linarith
  refine ⟨a / n, b / n, c / n, ?_, ?_⟩
  · simp only [calculateBlochCoordinates, jsDivide]
    simp [← ha, ← hb, ← hc, ← hn, hn0]
  · field_simp
    nlinarith [hsqrt]

end Visualization

namespace Simulator

/-- C12: for a page with a cached result, `switchResultView` to each of the views
`histogram`, `bloch`, `matrix` and `circuit` makes that view the active one and calls
exactly the one transform of that view on the cached result; with no cached result it
calls nothing. -/
theorem switchResultView_runs_one_transform (p : Page) :
    (∀ r, p.simulationResults = some r →
      (switchResultView p "histogram").calls
        = p.calls ++ [Call.transform Visualization.Transform.updateHistogram r] ∧
      (switchResultView p "bloch").calls
        = p.calls ++ [Call.transform Visualization.Transform.updateBlochSpheres r] ∧
      (switchResultView p "matrix").calls
        = p.calls ++ [Call.transform Visualization.Transform.updateStateMatrix r] ∧
      (switchResultView p "circuit").calls
        = p.calls ++ [Call.transform Visualization.Transform.updateCircuitDiagram r]) ∧
    (p.simulationResults = none → ∀ v, (switchResultView p v).calls = p.calls) ∧
    (∀ v, (switchResultView p v).activeView = v ++ "View") := by
  refine ⟨?_, ?_, ?_⟩
  · intro r hr
    refine ⟨?_, ?_, ?_, ?_⟩ <;>
      simp [switchResultView, hr, activeViewAfterSwitch, Visualization.updateVisualizations]
  · intro hnone v
    simp [switchResultView, hnone]
  · intro v
    unfold switchResultView
    cases p.simulationResults <;> rfl

/-- Witness of C12: the initial page with a cached result of counts only. -/
theorem switchResultView_runs_one_transform_witness :
    (switchResultView
        { initialPage with simulationResults := some { counts := some [("0", 1)], shots := 1 } }
        "matrix").calls
      = [Call.transform Visualization.Transform.updateStateMatrix
          { counts := some [("0", 1)], shots := 1 }] ∧
    (switchResultView initialPage "matrix").calls = [] :=
  ⟨((switchResultView_runs_one_transform
      { initialPage with simulationResults := some { counts := some [("0", 1)], shots := 1 } }).1
      { counts := some [("0", 1)], shots := 1 } rfl).2.2.1,
   (switchResultView_runs_one_transform initialPage).2.1 rfl "matrix"⟩

/-- C13: `runSimulation` makes exactly one outgoing call. When the socket exists and
its `readyState` is `OPEN`, the call is `websocket.send` of the message with action
`run_simulation` and the body as data; otherwise it is a `POST` to `/api/simulate`
with the same body. The run button is disabled in both cases. -/
theorem runSimulation_uses_one_mode (s : State) (p : Page) :
    (p.websocket = some ReadyState.OPEN →
      (runSimulation s p).calls
        = p.calls ++ [Call.websocketSend "run_simulation" (simulationDataOf s)]) ∧
    (p.websocket ≠ some ReadyState.OPEN →
      (runSimulation s p).calls
        = p.calls ++ [Call.fetch "/api/simulate" "POST" (simulationDataOf s)]) ∧
    (runSimulation s p).runDisabled = true := by
  refine ⟨?_, ?_, ?_⟩
  · intro h
    simp [runSimulation, showLoadingIndicator, h]
  · intro h
    rcases hw : p.websocket with _ | (_ | _ | _ | _) <;>
      simp_all [runSimulation, showLoadingIndicator]
  · rcases hw : p.websocket with _ | (_ | _ | _ | _) <;>
      simp [runSimulation, showLoadingIndicator, hw]

/-- Witness of C13: the initial circuit with an open socket, and with no socket. -/
theorem runSimulation_uses_one_mode_witness :
    (runSimulation initialState { initialPage with websocket := some ReadyState.OPEN }).calls
      = [Call.websocketSend "run_simulation" (simulationDataOf initialState)] ∧
    (runSimulation initialState initialPage).calls
      = [Call.fetch "/api/simulate" "POST" (simulationDataOf initialState)] :=
  ⟨(runSimulation_uses_one_mode initialState
      { initialPage with websocket := some ReadyState.OPEN }).1 rfl,
   (runSimulation_uses_one_mode initialState initialPage).2.1 (by decide)⟩

/-- C14 (the code departs from the claim): with the socket closed, when the server
answers the `POST` with status 500 and a JSON body, the promise of `fetch` is fulfilled
and the body is processed as a result: it becomes the cached result, the metrics and
the active view are updated, the run button is re-enabled, and no notification is
shown. -/
theorem fetchSettled_http_error_is_processed :
    fetchSettled
        (runSimulation initialState { initialPage with websocket := some ReadyState.CLOSED })
        (FetchOutcome.response 500 (some { shots := 0 }))
      = { simulationResults := some { shots := 0 }
          websocket := some ReadyState.CLOSED
          runDisabled := false
          activeView := "histogramView"
          calls := [Call.fetch "/api/simulate" "POST" (simulationDataOf initialState),
                    Call.updateMetrics { shots := 0 },
                    Call.transform Visualization.Transform.updateHistogram { shots := 0 }] } := by
  rfl

/-- The status of the response is never read: every response with a JSON body is
processed as a result and adds no notification. -/
theorem fetchSettled_response_with_json (p : Page) (status : Nat)
    (data : Visualization.SimulationResult) :
    fetchSettled p (FetchOutcome.response status (some data))
      = processSimulationResults p data ∧
    (fetchSettled p (FetchOutcome.response status (some data))).simulationResults = some data ∧
    (∀ m t, Call.showNotification m t ∈
        (fetchSettled p (FetchOutcome.response status (some data))).calls →
      Call.showNotification m t ∈ p.calls) := by
  refine ⟨rfl, rfl, ?_⟩
  intro m t h
  simp only [fetchSettled, processSimulationResults, showLoadingIndicator, List.mem_append,
    List.mem_singleton, List.mem_map] at h
  rcases h with (h | h) | ⟨_, _, h⟩
  · exact h
  · exact Call.noConfusion h
  · exact Call.noConfusion h

/-- When `fetch` rejects, or the body of the response is not JSON, one error
notification is shown, the run button is re-enabled and the cached result is kept. -/
theorem fetchSettled_rejected (p : Page) (outcome : FetchOutcome)
    (h : outcome = FetchOutcome.rejected ∨ ∃ status, outcome = FetchOutcome.response status none) :
    (fetchSettled p outcome).calls = p.calls ++
      [Call.consoleError "Error al ejecutar la simulación:",
       Call.showNotification "Error al ejecutar la simulación" "error"] ∧
    (fetchSettled p outcome).runDisabled = false ∧
    (fetchSettled p outcome).simulationResults = p.simulationResults := by
  rcases h with rfl | ⟨status, rfl⟩ <;> exact ⟨rfl, rfl, rfl⟩

/-- C15: the body built by `runSimulation` has `circuit.num_qubits = numQubits` and one
gate per gate of the circuit, in the same order, gate `i` carrying the type, the target
as a one-element list, the control as a one-element list when the gate has one and the
empty list otherwise, and the parameters or the empty list; it carries the current
shots, simulation type, noise model, optimizer, hardware profile and parallel flag, and
it is the body of the one call that `runSimulation` makes. -/
theorem runSimulation_request_body (s : State) (p : Page) :
    (simulationDataOf s).circuit.num_qubits = s.numQubits ∧
    (simulationDataOf s).circuit.gates.length = s.circuit.length ∧
    (∀ i (h1 : i < (simulationDataOf s).circuit.gates.length) (h2 : i < s.circuit.length),
      (simulationDataOf s).circuit.gates[i]
        = { gate_type := s.circuit[i].type
            target_qubits := [s.circuit[i].target]
            control_qubits := s.circuit[i].control.toList
            parameters := s.circuit[i].parameters.getD [] }) ∧
    (simulationDataOf s).shots = s.numShots ∧
    (simulationDataOf s).simulation_type = s.simulationType ∧
    (simulationDataOf s).noise_model = s.noiseModel ∧
    (simulationDataOf s).optimization_algorithm = s.optimizationAlgorithm ∧
    (simulationDataOf s).hardware_profile = s.hardwareProfile ∧
    (simulationDataOf s).parallel_execution = s.parallelExecution ∧
    ((runSimulation s p).calls
        = p.calls ++ [Call.websocketSend "run_simulation" (simulationDataOf s)] ∨
      (runSimulation s p).calls
        = p.calls ++ [Call.fetch "/api/simulate" "POST" (simulationDataOf s)]) := by
  refine ⟨rfl, by simp [simulationDataOf], ?_, rfl, rfl, rfl, rfl, rfl, rfl, ?_⟩
  · intro i h1 h2
    simp only [simulationDataOf, List.getElem_map, requestGateOf]
    cases hc : s.circuit[i].control <;> cases hp : s.circuit[i].parameters <;> simp
  · rcases hw : p.websocket with _ | (_ | _ | _ | _) <;>
      simp [runSimulation, showLoadingIndicator, hw]

/-- A control on qubit 0 is sent as `[0]`, and a gate without control or parameters is
sent with two empty lists. -/
theorem requestGateOf_examples :
    requestGateOf { type := "CNOT", target := 1, control := some 0 }
      = { gate_type := "CNOT", target_qubits := [1], control_qubits := [0], parameters := [] } ∧
    requestGateOf { type := "H", target := 0 }
      = { gate_type := "H", target_qubits := [0], control_qubits := [], parameters := [] } := by
  decide

end Simulator

/-! ## Properties of the circuit diagram -/

namespace Visualization

/-- What `drawGate` draws is determined by the column, the first target and the first
control of the gate. -/
theorem drawGate_eq_some (gate : DiagramGate) (x : ℤ) (g : GateDrawing)
    (h : drawGate gate x = some g) :
    ∃ t, gate.target_qubits.head? = some t ∧
      g.text = gate.gate_type ∧ g.x = x ∧ g.y = ((t : ℤ) + 1) * 60 ∧
      g.box = { x := x - 20, y := ((t : ℤ) + 1) * 60 - 20, w := 40, h := 40 } ∧
      g.control =
        (match gate.control_qubits.head? with
         | none => none
         | some cq =>
           some { x := x, controlY := ((cq : ℤ) + 1) * 60,
                  lineEndY := ((t : ℤ) + 1) * 60 - 20, radius := 5 }) := by
  unfold drawGate at h
  cases ht : gate.target_qubits.head? with
  | none => simp [ht] at h
  | some t =>
    simp only [ht, Option.some.injEq] at h
    subst h
    exact ⟨t, rfl, rfl, rfl, rfl, rfl, rfl⟩

/-- The entry of the diagram at position `i` is what `drawGate` draws for gate `i` in
the column `80 + 60 * i`. -/
theorem updateCircuitDiagram_gates_getElem? (results : SimulationResult)
    (circuit : CircuitView) (d : CircuitDiagram)
    (hc : results.circuit = some circuit) (hd : updateCircuitDiagram results = some d)
    (i : Nat) :
    d.gates[i]? = (circuit.gates[i]?).map (fun gate => drawGate gate (80 + (i : ℤ) * 60)) := by
  simp only [updateCircuitDiagram, hc, Option.some.injEq] at hd
  subst hd
  simp only [List.getElem?_mapIdx]

/-- The size of the canvas and the qubit lines. -/
theorem updateCircuitDiagram_size (results : SimulationResult) (circuit : CircuitView)
    (hc : results.circuit = some circuit) :
    ∃ d, updateCircuitDiagram results = some d ∧
      d.width = max 600 ((circuit.gates.length : ℤ) * 60 + 100) ∧
      d.height = (circuit.num_qubits : ℤ) * 60 + 60 ∧
      d.gates.length = circuit.gates.length ∧
      d.qubitLines.length = circuit.num_qubits ∧
      (∀ l ∈ d.qubitLines, l.x1 = 50 ∧ l.x2 = d.width - 50 ∧ l.y = ((l.index : ℤ) + 1) * 60 ∧
        l.index < circuit.num_qubits) := by
  simp only [updateCircuitDiagram, hc]
  refine ⟨_, rfl, rfl, rfl, ?_, ?_, ?_⟩
  · simp
  · simp
  · intro l hl
    simp only [List.mem_map, List.mem_range] at hl
    obtain ⟨i, hi, rfl⟩ := hl
    exact ⟨rfl, rfl, rfl, hi⟩

/-- C21: for a result carrying a circuit, `updateCircuitDiagram` draws one entry per
gate of the sequence; gate `i` with target `t` is drawn in the column
`x = 80 + 60 * i` with its box centred on the row `y = 60 * (t + 1)`, its control
marker, when the gate has a control `c`, in the same column on the row `60 * (c + 1)`,
and no marker otherwise; gates at different positions are drawn in different columns. -/
theorem updateCircuitDiagram_gate_positions (results : SimulationResult)
    (circuit : CircuitView) (hc : results.circuit = some circuit) :
    ∃ d, updateCircuitDiagram results = some d ∧
      d.gates.length = circuit.gates.length ∧
      (∀ i (hi : i < circuit.gates.length) (t : Nat),
        circuit.gates[i].target_qubits.head? = some t →
        ∃ g, d.gates[i]? = some (some g) ∧
          g.x = 80 + 60 * (i : ℤ) ∧ g.y = 60 * ((t : ℤ) + 1) ∧
          g.box = { x := g.x - 20, y := g.y - 20, w := 40, h := 40 } ∧
          (∀ c, circuit.gates[i].control_qubits.head? = some c →
            ∃ m, g.control = some m ∧ m.x = g.x ∧ m.controlY = 60 * ((c : ℤ) + 1)) ∧
          (circuit.gates[i].control_qubits = [] → g.control = none)) ∧
      (∀ (i j : Nat) (g h : GateDrawing),
        d.gates[i]? = some (some g) → d.gates[j]? = some (some h) → i ≠ j → g.x ≠ h.x) := by
  obtain ⟨d, hd, _, _, hlen, _, _⟩ := updateCircuitDiagram_size results circuit hc
  have hx : ∀ (i : Nat) (g : GateDrawing),
      d.gates[i]? = some (some g) → g.x = 80 + (i : ℤ) * 60 := by
    intro i g hg
    rw [updateCircuitDiagram_gates_getElem? results circuit d hc hd i] at hg
    cases hgate : circuit.gates[i]? with
    | none => simp [hgate] at hg
    | some gate =>
      simp only [hgate, Option.map_some', Option.some.injEq] at hg
      obtain ⟨_, _, _, hgx, _⟩ := drawGate_eq_some gate _ g hg
      exact hgx
  refine ⟨d, hd, hlen, ?_, ?_⟩
  · intro i hi t ht
    have hgate : circuit.gates[i]? = some circuit.gates[i] := List.getElem?_eq_getElem hi
    have hdi := updateCircuitDiagram_gates_getElem? results circuit d hc hd i
    rw [hgate, Option.map_some'] at hdi
    cases hdraw : drawGate circuit.gates[i] (80 + (i : ℤ) * 60) with
    | none => simp [drawGate, ht] at hdraw
    | some g =>
      obtain ⟨t1, ht1, _, hgx, hgy, hbox, hctl⟩ := drawGate_eq_some _ _ g hdraw
      rw [ht] at ht1
      have htt : t1 = t := (Option.some.inj ht1).symm
      subst htt
      refine ⟨g, by rw [hdi, hdraw], by rw [hgx]; ring, by rw [hgy]; ring, ?_, ?_, ?_⟩
      · rw [hbox, hgx, hgy]
      · intro c hcq
        rw [hcq] at hctl
        exact ⟨_, hctl, hgx.symm, by ring⟩
      · intro hnil
        rw [hnil] at hctl
        exact hctl
  · intro i j g h hg hh hij hxeq
    have h1 := hx i g hg
    have h2 := hx j h hh
    apply hij
    omega

/-- C25: for a result circuit with `q` qubits whose gates refer only to qubits below
`q`, every gate box and every control marker that `updateCircuitDiagram` draws lies
inside the canvas of width `max(600, 60 k + 100)` and height `60 q + 60`, and
horizontally between the ends `50` and `width - 50` of the qubit lines. -/
theorem updateCircuitDiagram_inside_canvas (results : SimulationResult)
    (circuit : CircuitView) (hc : results.circuit = some circuit)
    (hrange : ∀ gate ∈ circuit.gates,
      (∀ t ∈ gate.target_qubits, t < circuit.num_qubits) ∧
      (∀ c ∈ gate.control_qubits, c < circuit.num_qubits)) :
    ∃ d, updateCircuitDiagram results = some d ∧
      d.width = max 600 (60 * (circuit.gates.length : ℤ) + 100) ∧
      d.height = 60 * (circuit.num_qubits : ℤ) + 60 ∧
      (∀ l ∈ d.qubitLines, l.x1 = 50 ∧ l.x2 = d.width - 50) ∧
      (∀ (i : Nat) (g : GateDrawing), d.gates[i]? = some (some g) →
        g.box = { x := g.x - 20, y := g.y - 20, w := 40, h := 40 } ∧
        0 ≤ g.box.x ∧ g.box.x + g.box.w ≤ d.width ∧
        0 ≤ g.box.y ∧ g.box.y + g.box.h ≤ d.height ∧
        50 ≤ g.box.x ∧ g.box.x + g.box.w ≤ d.width - 50 ∧
        (∀ m : ControlMarker, g.control = some m →
          0 ≤ m.x - m.radius ∧ m.x + m.radius ≤ d.width ∧
          0 ≤ m.controlY - m.radius ∧ m.controlY + m.radius ≤ d.height ∧
          50 ≤ m.x - m.radius ∧ m.x + m.radius ≤ d.width - 50 ∧
          0 ≤ m.lineEndY ∧ m.lineEndY ≤ d.height)) := by
  obtain ⟨d, hd, hw, hh, _, _, hlines⟩ := updateCircuitDiagram_size results circuit hc
  refine ⟨d, hd, by rw [hw]; ring_nf, by rw [hh]; ring, fun l hl => ⟨(hlines l hl).1, (hlines l hl).2.1⟩, ?_⟩
  intro i g hg
  rw [updateCircuitDiagram_gates_getElem? results circuit d hc hd i] at hg
  cases hgate : circuit.gates[i]? with
  | none => simp [hgate] at hg
  | some gate =>
    simp only [hgate, Option.map_some', Option.some.injEq] at hg
    obtain ⟨t, ht, _, hgx, hgy, hbox, hctl⟩ := drawGate_eq_some gate _ g hg
    have hi : i < circuit.gates.length := by
      by_contra hge
      rw [List.getElem?_eq_none (Nat.le_of_not_lt hge)] at hgate
      exact Option.noConfusion hgate
    have hmem : gate ∈ circuit.gates := List.getElem?_mem hgate
    have htq : t < circuit.num_qubits :=
      (hrange gate hmem).1 t (List.mem_of_mem_head? ht)
    have hk : (i : ℤ) + 1 ≤ (circuit.gates.length : ℤ) := by exact_mod_cast hi
    have hq : (t : ℤ) + 1 ≤ (circuit.num_qubits : ℤ) := by exact_mod_cast htq
    have ht0 : (0 : ℤ) ≤ (t : ℤ) := Int.natCast_nonneg t
    have hi0 : (0 : ℤ) ≤ (i : ℤ) := Int.natCast_nonneg i
    have hwle : (circuit.gates.length : ℤ) * 60 + 100 ≤ d.width := by
      rw [hw]
      exact le_max_right _ _
    refine ⟨by rw [hbox, hgx, hgy], ?_, ?_, ?_, ?_, ?_, ?_, ?_⟩
    · rw [hbox]; simp only; omega
    · rw [hbox]; simp only; omega
    · rw [hbox]; simp only; omega
    · rw [hbox, hh]; simp only; omega
    · rw [hbox]; simp only; omega
    · rw [hbox]; simp only; omega
    · intro m hm
      rw [hm] at hctl
      cases hcq : gate.control_qubits.head? with
      | none => simp [hcq] at hctl
      | some cq =>
        simp only [hcq, Option.some.injEq] at hctl
        subst hctl
        have hcqq : cq < circuit.num_qubits :=
          (hrange gate hmem).2 cq (List.mem_of_mem_head? hcq)
        have hcq1 : (cq : ℤ) + 1 ≤ (circuit.num_qubits : ℤ) := by exact_mod_cast hcqq
        have hcq0 : (0 : ℤ) ≤ (cq : ℤ) := Int.natCast_nonneg cq
        simp only
        rw [hh]
        refine ⟨?_, ?_, ?_, ?_, ?_, ?_, ?_, ?_⟩ <;> omega

end Visualization

namespace Visualization

/-- Witness of C21: a two-qubit circuit with `H` on qubit 0 and `CNOT` on target 1 with
control 0. -/
theorem updateCircuitDiagram_gate_positions_witness :
    ∃ d, updateCircuitDiagram
        { shots := 1024,
          circuit := some
            { num_qubits := 2,
              gates := [{ gate_type := "H", target_qubits := [0] },
                        { gate_type := "CNOT", target_qubits := [1], control_qubits := [0] }] } }
        = some d ∧
      d.gates.length = 2 :=
  (updateCircuitDiagram_gate_positions
    { shots := 1024,
      circuit := some
        { num_qubits := 2,
          gates := [{ gate_type := "H", target_qubits := [0] },
                    { gate_type := "CNOT", target_qubits := [1], control_qubits := [0] }] } }
    { num_qubits := 2,
      gates := [{ gate_type := "H", target_qubits := [0] },
                { gate_type := "CNOT", target_qubits := [1], control_qubits := [0] }] }
    rfl).imp (fun _ h => ⟨h.1, h.2.1⟩)

/-- The diagram of the two-gate circuit: a canvas of 600 by 180, `H` at `(80, 60)` and
`CNOT` at `(140, 120)` with its control marker at `(140, 60)`. -/
theorem updateCircuitDiagram_example :
    updateCircuitDiagram
        { shots := 1024,
          circuit := some
            { num_qubits := 2,
              gates := [{ gate_type := "H", target_qubits := [0] },
                        { gate_type := "CNOT", target_qubits := [1], control_qubits := [0] }] } }
      = some
        { width := 600
          height := 180
          qubitLines := [{ index := 0, y := 60, x1 := 50, x2 := 550 },
                         { index := 1, y := 120, x1 := 50, x2 := 550 }]
          gates :=
            [some { text := "H", x := 80, y := 60,
                    box := { x := 60, y := 40, w := 40, h := 40 }, control := none },
             some { text := "CNOT", x := 140, y := 120,
                    box := { x := 120, y := 100, w := 40, h := 40 },
                    control := some { x := 140, controlY := 60, lineEndY := 100, radius := 5 } }] } := by
  decide

/-- Witness of C25: the same two-qubit circuit. -/
theorem updateCircuitDiagram_inside_canvas_witness :
    ∃ d, updateCircuitDiagram
        { shots := 1024,
          circuit := some
            { num_qubits := 2,
              gates := [{ gate_type := "H", target_qubits := [0] },
                        { gate_type := "CNOT", target_qubits := [1], control_qubits := [0] }] } }
        = some d ∧
      d.width = max 600 (60 * ((2 : Nat) : ℤ) + 100) ∧
      d.height = 60 * ((2 : Nat) : ℤ) + 60 :=
  (updateCircuitDiagram_inside_canvas
    { shots := 1024,
      circuit := some
        { num_qubits := 2,
          gates := [{ gate_type := "H", target_qubits := [0] },
                    { gate_type := "CNOT", target_qubits := [1], control_qubits := [0] }] } }
    { num_qubits := 2,
      gates := [{ gate_type := "H", target_qubits := [0] },
                { gate_type := "CNOT", target_qubits := [1], control_qubits := [0] }] }
    rfl (by decide)).imp (fun _ h => ⟨h.1, h.2.1, h.2.2.1⟩)

end Visualization

/-! ## Properties of the metrics, the reconnection loop and well-formedness -/

namespace Simulator

/-- C22: for a result in which an optional numeric field is missing, `updateMetrics`
shows the fixed default of that field: `0.00` for the entanglement entropy, `1.00` for
the fidelity, `0 ms` for the execution time and `0` for the circuit depth. -/
theorem updateMetrics_defaults (toFixed2 : ℚ → String)
    (results : Visualization.SimulationResult) :
    (results.entanglement_entropy = none →
      (updateMetrics toFixed2 results).entanglementValue = "0.00") ∧
    (results.fidelity = none → (updateMetrics toFixed2 results).fidelityValue = "1.00") ∧
    (results.execution_time = none → (updateMetrics toFixed2 results).executionTime = "0 ms") ∧
    (results.circuit_depth = none → (updateMetrics toFixed2 results).circuitDepth = "0") := by
  refine ⟨?_, ?_, ?_, ?_⟩ <;> intro h <;> simp [updateMetrics, h]

/-- Witness of C22: a result of counts only, and a result with a fidelity only. -/
theorem updateMetrics_defaults_witness :
    (updateMetrics (fun _ => "0.97") { counts := some [("0", 1)], shots := 1 }).fidelityValue
      = "1.00" ∧
    (updateMetrics (fun _ => "0.97") { counts := some [("0", 1)], shots := 1 }).circuitDepth
      = "0" ∧
    (updateMetrics (fun _ => "0.97") { shots := 1, fidelity := some (97 / 100) }).executionTime
      = "0 ms" :=
  ⟨(updateMetrics_defaults (fun _ => "0.97")
      { counts := some [("0", 1)], shots := 1 }).2.1 rfl,
   (updateMetrics_defaults (fun _ => "0.97")
      { counts := some [("0", 1)], shots := 1 }).2.2.2 rfl,
   (updateMetrics_defaults (fun _ => "0.97")
      { shots := 1, fidelity := some (97 / 100) }).2.2.1 rfl⟩

/-- A present and non-zero metric is shown through `toFixed(2)`, the depth as it is. -/
theorem updateMetrics_present (toFixed2 : ℚ → String)
    (results : Visualization.SimulationResult) (v : ℚ) (d : Nat) (hv : v ≠ 0) (hd : d ≠ 0) :
    (results.entanglement_entropy = some v →
      (updateMetrics toFixed2 results).entanglementValue = toFixed2 v) ∧
    (results.fidelity = some v → (updateMetrics toFixed2 results).fidelityValue = toFixed2 v) ∧
    (results.execution_time = some v →
      (updateMetrics toFixed2 results).executionTime = toFixed2 v ++ " ms") ∧
    (results.circuit_depth = some d →
      (updateMetrics toFixed2 results).circuitDepth = toString d) := by
  refine ⟨?_, ?_, ?_, ?_⟩ <;> intro h <;> simp [updateMetrics, h, hv, hd]

/-- C26: a numeric field that is present with value 0 is treated like a missing field.
`updateMetrics` shows the same four texts as for the result without the field, so
`1.00` for a fidelity of 0; `loadCircuit` gives the same state as for the snapshot
without `numShots`, so 1024 shots for `numShots` 0; and loading the snapshot saved from
a state with 0 shots gives 1024 shots. -/
theorem zero_is_treated_as_missing (toFixed2 : ℚ → String)
    (results : Visualization.SimulationResult) (s t : State) (d : CircuitData) :
    (results.fidelity = some 0 →
      (updateMetrics toFixed2 results).fidelityValue = "1.00" ∧
      updateMetrics toFixed2 results = updateMetrics toFixed2 { results with fidelity := none }) ∧
    (results.entanglement_entropy = some 0 →
      updateMetrics toFixed2 results
        = updateMetrics toFixed2 { results with entanglement_entropy := none }) ∧
    (results.execution_time = some 0 →
      updateMetrics toFixed2 results
        = updateMetrics toFixed2 { results with execution_time := none }) ∧
    (results.circuit_depth = some 0 →
      updateMetrics toFixed2 results
        = updateMetrics toFixed2 { results with circuit_depth := none }) ∧
    (d.numShots = some 0 →
      (loadCircuit t d).numShots = 1024 ∧
      loadCircuit t d = loadCircuit t { d with numShots := none }) ∧
    (s.numShots = 0 →
      (loadCircuit t (circuitDataOf s)).numShots = 1024 ∧
      (loadCircuit t (circuitDataOf s)).numShots ≠ s.numShots) := by
  refine ⟨?_, ?_, ?_, ?_, ?_, ?_⟩
  · intro h
    constructor <;> simp [updateMetrics, h]
  · intro h
    simp [updateMetrics, h]
  · intro h
    simp [updateMetrics, h]
  · intro h
    simp [updateMetrics, h]
  · intro h
    constructor <;> simp [loadCircuit, orNat, h]
  · intro h
    constructor <;> simp [loadCircuit, circuitDataOf, orNat, h]

/-- Witness of C26: a result with fidelity 0, and the initial state with 0 shots. -/
theorem zero_is_treated_as_missing_witness :
    (updateMetrics (fun _ => "0.00") { shots := 1, fidelity := some 0 }).fidelityValue = "1.00" ∧
    (loadCircuit initialState { numQubits := 3, gates := [], numShots := some 0 }).numShots
      = 1024 ∧
    (loadCircuit initialState (circuitDataOf { initialState with numShots := 0 })).numShots
      = 1024 :=
  ⟨((zero_is_treated_as_missing (fun _ => "0.00") { shots := 1, fidelity := some 0 }
      initialState initialState { numQubits := 3, gates := [] }).1 rfl).1,
   ((zero_is_treated_as_missing (fun _ => "0.00") { shots := 1 }
      initialState initialState
      { numQubits := 3, gates := [], numShots := some 0 }).2.2.2.2.1 rfl).1,
   ((zero_is_treated_as_missing (fun _ => "0.00") { shots := 1 }
      { initialState with numShots := 0 } initialState
      { numQubits := 3, gates := [] }).2.2.2.2.2 rfl).1⟩

end Simulator

namespace Simulator

/-- A gate is in range exactly when its target, and its control if it has one, are
below the qubit count. -/
theorem gateInRange_iff (n : Nat) (g : Gate) :
    gateInRange n g = true ↔ g.target < n ∧ ∀ c, g.control = some c → c < n := by
  unfold gateInRange
  cases hc : g.control with
  | none => simp
  | some c => simp

/-- The meaning of `wellFormed`. -/
theorem wellFormed_iff (s : State) :
    wellFormed s = true ↔
      1 ≤ s.numQubits ∧ s.numQubits ≤ 20 ∧
      ∀ g ∈ s.circuit, g.target < s.numQubits ∧ ∀ c, g.control = some c → c < s.numQubits := by
  unfold wellFormed
  simp only [Bool.and_eq_true, decide_eq_true_eq, List.all_eq_true, gateInRange_iff, and_assoc]

/-- A gate in range stays in range when the qubit count grows. -/
theorem gateInRange_mono (n m : Nat) (g : Gate) (hnm : n ≤ m) (h : gateInRange n g = true) :
    gateInRange m g = true := by
  rw [gateInRange_iff] at h ⊢
  exact ⟨Nat.lt_of_lt_of_le h.1 hnm, fun c hc => Nat.lt_of_lt_of_le (h.2 c hc) hnm⟩

/-- The gate built for a qubit line below the qubit count is in range. -/
theorem newGate_inRange (sel : String) (qubit n : Nat) (hq : qubit < n) :
    gateInRange n (newGate sel qubit n) = true := by
  rw [gateInRange_iff]
  refine ⟨hq, ?_⟩
  intro c hc
  unfold newGate at hc
  simp only at hc
  split at hc
  · have hcn : (qubit + 1) % n = c := Option.some.inj hc
    rw [← hcn]
    exact Nat.mod_lt _ (Nat.lt_of_le_of_lt (Nat.zero_le _) hq)
  · exact Option.noConfusion hc

/-- The function `placeGate` either leaves the state as it is or appends the gate built
from the selected type, without changing the qubit count. -/
theorem placeGate_cases (s : State) (qubit : Nat) :
    placeGate s qubit = s ∨
    ∃ sel, (placeGate s qubit).circuit = s.circuit ++ [newGate sel qubit s.numQubits] ∧
      (placeGate s qubit).numQubits = s.numQubits := by
  unfold placeGate
  cases hsel : s.selectedGate with
  | none => exact Or.inl rfl
  | some sel =>
    by_cases hne : sel = ""
    · simp [hne]
    · refine Or.inr ⟨sel, ?_, ?_⟩ <;> simp only [hne, if_false] <;> split <;> rfl

/-- The function `removeGate` keeps the qubit count and adds no gate. -/
theorem removeGate_subset (s : State) (g : Gate) :
    (removeGate s g).numQubits = s.numQubits ∧
    ∀ x ∈ (removeGate s g).circuit, x ∈ s.circuit := by
  unfold removeGate
  cases hidx : s.circuit.findIdx? (sameGate g) with
  | none => exact ⟨rfl, fun x hx => hx⟩
  | some index =>
    simp only
    split
    · exact ⟨rfl, fun x hx => List.mem_of_mem_eraseIdx hx⟩
    · exact ⟨rfl, fun x hx => List.mem_of_mem_eraseIdx hx⟩

/-- C24: circuit well-formedness (between 1 and 20 qubits, every gate's target and
control below the qubit count) holds in the initial state of 3 qubits and no gates, and
is preserved by `placeGate` on a qubit line below the qubit count, by `removeGate`, by
`addQubit`, which changes nothing at 20 qubits, by `removeQubit`, which changes nothing
at 1 qubit, and by `clearCircuit`. -/
theorem wellFormed_preserved :
    (wellFormed initialState = true ∧ initialState.numQubits = 3 ∧ initialState.circuit = []) ∧
    (∀ s, wellFormed s = true ↔
      1 ≤ s.numQubits ∧ s.numQubits ≤ 20 ∧
      ∀ g ∈ s.circuit, g.target < s.numQubits ∧ ∀ c, g.control = some c → c < s.numQubits) ∧
    (∀ s, wellFormed s = true →
      (∀ i, i < s.numQubits → wellFormed (placeGate s i) = true) ∧
      (∀ g, wellFormed (removeGate s g) = true) ∧
      wellFormed (addQubit s) = true ∧
      (s.numQubits = 20 → addQubit s = s) ∧
      wellFormed (removeQubit s) = true ∧
      (s.numQubits = 1 → removeQubit s = s) ∧
      wellFormed (clearCircuit s) = true) := by
  refine ⟨⟨by decide, rfl, rfl⟩, wellFormed_iff, ?_⟩
  intro s hs
  have hs1 := hs
  unfold wellFormed at hs1
  simp only [Bool.and_eq_true, decide_eq_true_eq, List.all_eq_true] at hs1
  obtain ⟨⟨h1, h20⟩, hall⟩ := hs1
  refine ⟨?_, ?_, ?_, ?_, ?_, ?_, ?_⟩
  · intro i hi
    rcases placeGate_cases s i with hp | ⟨sel, hc, hn⟩
    · rw [hp]
      exact hs
    · unfold wellFormed
      simp only [Bool.and_eq_true, decide_eq_true_eq, List.all_eq_true, hc, hn]
      refine ⟨⟨h1, h20⟩, ?_⟩
      intro x hx
      rcases List.mem_append.mp hx with hx1 | hx1
      · exact hall x hx1
      · rw [List.mem_singleton] at hx1
        rw [hx1]
        exact newGate_inRange sel i s.numQubits hi
  · intro g
    obtain ⟨hn, hsub⟩ := removeGate_subset s g
    unfold wellFormed
    simp only [Bool.and_eq_true, decide_eq_true_eq, List.all_eq_true, hn]
    exact ⟨⟨h1, h20⟩, fun x hx => hall x (hsub x hx)⟩
  · unfold addQubit
    split
    · rename_i hlt
      unfold wellFormed
      simp only [Bool.and_eq_true, decide_eq_true_eq, List.all_eq_true]
      refine ⟨⟨by omega, by omega⟩, ?_⟩
      intro x hx
      exact gateInRange_mono s.numQubits _ x (Nat.le_succ _) (hall x hx)
    · exact hs
  · intro h
    simp [addQubit, h]
  · unfold removeQubit
    split
    · rename_i hgt
      unfold wellFormed
      simp only [Bool.and_eq_true, decide_eq_true_eq, List.all_eq_true]
      refine ⟨⟨by omega, by omega⟩, ?_⟩
      intro x hx
      rw [List.mem_filter, keptByRemoveQubit_iff] at hx
      rw [gateInRange_iff]
      refine ⟨hx.2.1, ?_⟩
      intro c hc
      rcases hx.2.2 with hnone | ⟨c1, hc1, hlt⟩
      · rw [hnone] at hc
        exact Option.noConfusion hc
      · rw [hc1] at hc
        rw [← Option.some.inj hc]
        exact hlt
    · exact hs
  · intro h
    simp [removeQubit, h]
  · unfold wellFormed clearCircuit resetCircuit
    simp only [Bool.and_eq_true, decide_eq_true_eq, List.all_eq_true]
    exact ⟨⟨h1, h20⟩, fun x hx => by simp at hx⟩

/-- Witness of C24: the initial state is well-formed, and so is the state after
selecting `CNOT` and placing it on qubit 2, and after removing a qubit from that. -/
theorem wellFormed_preserved_witness :
    wellFormed initialState = true ∧
    wellFormed (placeGate (selectGate initialState "CNOT") 2) = true ∧
    wellFormed (removeQubit (placeGate (selectGate initialState "CNOT") 2)) = true :=
  ⟨wellFormed_preserved.1.1,
   (wellFormed_preserved.2.2 (selectGate initialState "CNOT") (by decide)).1 2 (by decide),
   (wellFormed_preserved.2.2 (placeGate (selectGate initialState "CNOT") 2)
      (by decide)).2.2.2.2.1⟩

/-- One event keeps the property that every pending timer calls `setupWebSocket` after
5000 ms. -/
theorem socketStep_pending (c : Connection) (e : SocketEvent)
    (h : ∀ t ∈ c.pending, t = { callback := TimerCallback.setupWebSocket, delay := 5000 }) :
    ∀ t ∈ (socketStep c e).pending,
      t = { callback := TimerCallback.setupWebSocket, delay := 5000 } := by
  cases e with
  | opened =>
    unfold socketStep
    simp only
    split <;> exact h
  | closed =>
    unfold socketStep
    simp only
    split
    · exact h
    · exact h
    · intro t ht
      simp only [websocketOnClose, List.mem_append, List.mem_singleton] at ht
      rcases ht with ht | ht
      · exact h t ht
      · exact ht
  | errored => exact h
  | timerFired =>
    unfold socketStep
    simp only
    split
    · exact h
    · rename_i t0 rest hp
      intro t ht
      have hrest : t ∈ rest := by
        unfold setupWebSocket at ht
        split at ht <;> exact ht
      exact h t (by rw [hp]; exact List.mem_cons_of_mem _ hrest)

/-- A sequence of events keeps the same property. -/
theorem socketRun_pending (events : List SocketEvent) (c : Connection)
    (h : ∀ t ∈ c.pending, t = { callback := TimerCallback.setupWebSocket, delay := 5000 }) :
    ∀ t ∈ (socketRun c events).pending,
      t = { callback := TimerCallback.setupWebSocket, delay := 5000 } := by
  induction events generalizing c with
  | nil => exact h
  | cons e events ih => exact ih (socketStep c e) (socketStep_pending c e h)

/-- A close followed by the firing of its timer gives, in a browser with `WebSocket`,
a new socket in `CONNECTING` and no pending timer. -/
theorem socketRun_round (c : Connection) (hs : c.supported = true) (hp : c.pending = [])
    (hw : ∃ r, c.websocket = some r ∧ r ≠ ReadyState.CLOSED) :
    (socketRun c [SocketEvent.closed, SocketEvent.timerFired]).supported = true ∧
    (socketRun c [SocketEvent.closed, SocketEvent.timerFired]).pending = [] ∧
    (socketRun c [SocketEvent.closed, SocketEvent.timerFired]).websocket
      = some ReadyState.CONNECTING := by
  obtain ⟨r, hr, hne⟩ := hw
  cases r with
  | CLOSED => exact absurd rfl hne
  | CONNECTING =>
    simp [socketRun, socketStep, websocketOnClose, setupWebSocket, hr, hp, hs]
  | OPEN =>
    simp [socketRun, socketStep, websocketOnClose, setupWebSocket, hr, hp, hs]
  | CLOSING =>
    simp [socketRun, socketStep, websocketOnClose, setupWebSocket, hr, hp, hs]

/-- C23: in every state that a sequence of events leads to, a close event on a socket
that is not yet closed sets exactly one new timer, which calls `setupWebSocket` after
5000 ms; every pending timer has that callback and that delay; and after any number of
rounds of a close and the firing of its timer the socket is again one that can close,
with no pending timer, so that the next close sets a timer again. -/
theorem websocket_close_schedules_one_reconnect (c0 : Connection)
    (history : List SocketEvent) :
    (∀ r, (socketRun c0 history).websocket = some r → r ≠ ReadyState.CLOSED →
      (socketStep (socketRun c0 history) SocketEvent.closed).pending
        = (socketRun c0 history).pending
            ++ [{ callback := TimerCallback.setupWebSocket, delay := 5000 }]) ∧
    ((∀ t ∈ c0.pending, t = { callback := TimerCallback.setupWebSocket, delay := 5000 }) →
      ∀ t ∈ (socketRun c0 history).pending,
        t.callback = TimerCallback.setupWebSocket ∧ t.delay = 5000) ∧
    (c0.supported = true → c0.pending = [] →
      (∃ r, c0.websocket = some r ∧ r ≠ ReadyState.CLOSED) →
      ∀ n : Nat,
        ((fun c => socketRun c [SocketEvent.closed, SocketEvent.timerFired])^[n] c0).pending
          = [] ∧
        (∃ r, ((fun c => socketRun c [SocketEvent.closed, SocketEvent.timerFired])^[n]
            c0).websocket = some r ∧ r ≠ ReadyState.CLOSED) ∧
        (socketStep ((fun c => socketRun c [SocketEvent.closed, SocketEvent.timerFired])^[n] c0)
            SocketEvent.closed).pending
          = [{ callback := TimerCallback.setupWebSocket, delay := 5000 }]) := by
  have hclose : ∀ (c : Connection) (r : ReadyState), c.websocket = some r →
      r ≠ ReadyState.CLOSED →
      (socketStep c SocketEvent.closed).pending
        = c.pending ++ [{ callback := TimerCallback.setupWebSocket, delay := 5000 }] := by
    intro c r hr hne
    cases r with
    | CLOSED => exact absurd rfl hne
    | CONNECTING => simp [socketStep, websocketOnClose, hr]
    | OPEN => simp [socketStep, websocketOnClose, hr]
    | CLOSING => simp [socketStep, websocketOnClose, hr]
  refine ⟨fun r hr hne => hclose _ r hr hne, ?_, ?_⟩
  · intro h t ht
    have := socketRun_pending history c0 h t ht
    rw [this]
    exact ⟨rfl, rfl⟩
  · intro hs hp hw n
    have hinv : ∀ n : Nat,
        ((fun c => socketRun c [SocketEvent.closed, SocketEvent.timerFired])^[n] c0).supported
          = true ∧
        ((fun c => socketRun c [SocketEvent.closed, SocketEvent.timerFired])^[n] c0).pending
          = [] ∧
        (∃ r, ((fun c => socketRun c [SocketEvent.closed, SocketEvent.timerFired])^[n]
            c0).websocket = some r ∧ r ≠ ReadyState.CLOSED) := by
      intro n
      induction n with
      | zero => exact ⟨hs, hp, hw⟩
      | succ n ih =>
        rw [Function.iterate_succ_apply']
        obtain ⟨h1, h2, h3⟩ := socketRun_round _ ih.1 ih.2.1 ih.2.2
        exact ⟨h1, h2, ReadyState.CONNECTING, h3, by decide⟩
    obtain ⟨_, hpn, r, hr, hne⟩ := hinv n
    refine ⟨hpn, ⟨r, hr, hne⟩, ?_⟩
    rw [hclose _ r hr hne, hpn]
    rfl

/-- Witness of C23: an open socket that closes, reconnects, opens and closes again. -/
theorem websocket_close_schedules_one_reconnect_witness :
    (socketStep
        (socketRun { supported := true, websocket := some ReadyState.OPEN, pending := [] }
          [SocketEvent.closed, SocketEvent.timerFired, SocketEvent.opened])
        SocketEvent.closed).pending
      = (socketRun { supported := true, websocket := some ReadyState.OPEN, pending := [] }
          [SocketEvent.closed, SocketEvent.timerFired, SocketEvent.opened]).pending
        ++ [{ callback := TimerCallback.setupWebSocket, delay := 5000 }] :=
  (websocket_close_schedules_one_reconnect
    { supported := true, websocket := some ReadyState.OPEN, pending := [] }
    [SocketEvent.closed, SocketEvent.timerFired, SocketEvent.opened]).1
    ReadyState.OPEN (by decide) (by decide)

end Simulator
